import Mathlib

/-!
# OpenScan-BH_SPC: acquisition control and data stream

A shallow embedding of `src/AcquisitionControl.cpp` (the acquisition lifecycle
controller of the Becker-Hickl SPC device module), of `src/DataStream.cpp`
(the sinks, the pump and the processing graph), of parts of `src/BH_SPC150.c`
(the line readout, the header checksum, the arming of the detector) and of
the event decoder behind `FLIMEvents/DecodedEvent.hpp`, and theorems about
them.

Conventions of the embedding.

* Unsigned machine integers are `Nat`, signed ones `Int`; where a conversion
  between widths matters it is written out with `% 2 ^ w`.
* A finite `double` is the rational number it denotes. The one function that
  computes with doubles, `PixelsToMacroTime`, is evaluated where its result is
  exact (zero pixels) and takes its value from a parameter elsewhere.
* A C++ call that may throw, or whose behaviour is undefined, returns
  `Except Fault _`; `Except.error` means that the call does not return
  normally to its caller.
* Calls into collaborators that are not part of the file (the vendor SDK
  wrappers, the file writer, the pipeline builder) take their answers from a
  `Collaborators` record and are recorded, in program order, in a trace of
  `Event`s.
* `NUM_MARKER_BITS` and the enumerations come from `BH_SPC150Private.h`, which
  is not among the sources; `NUM_MARKER_BITS` is a parameter throughout.
-/

namespace BHSPC

/-! ## Standard-library objects used by the controller -/

/-- Error codes of `std::future_errc`. -/
inductive future_errc where
  | broken_promise
  | future_already_retrieved
  | promise_already_satisfied
  | no_state
  deriving DecidableEq, Repr

/-- Ways in which a call fails to return normally. -/
inductive Fault where
  /-- A `std::future_error` with the given code leaves the function. -/
  | future_error (code : future_errc)
  /-- A `std::out_of_range` from `std::bitset`, or an array index outside its bounds. -/
  | out_of_range
  /-- A `std::bad_alloc` leaves the function. -/
  | bad_alloc
  /-- A null pointer is dereferenced. -/
  | null_dereference
  /-- An exception stored in a future is rethrown by `get()` and leaves the function. -/
  | stored_exception
  deriving DecidableEq, Repr

/-- A `std::bitset<N>`: `bit i` is meaningful for `i < N`. -/
structure bitset (N : Nat) where
  bit : Nat → Bool

/-- A default-constructed `std::bitset<N>` has all bits clear. -/
def bitset.empty (N : Nat) : bitset N := ⟨fun _ => false⟩

/-- The call `std::bitset<N>::set(pos)`: throws `std::out_of_range` unless `pos < N`. -/
def bitset.set {N : Nat} (b : bitset N) (pos : Nat) : Except Fault (bitset N) :=
  if pos < N then .ok ⟨fun i => if i = pos then true else b.bit i⟩
  else .error Fault.out_of_range

/-- The call `std::bitset<N>::test(pos)`: throws `std::out_of_range` unless `pos < N`. -/
def bitset.test {N : Nat} (b : bitset N) (pos : Nat) : Except Fault Bool :=
  if pos < N then .ok (b.bit pos) else .error Fault.out_of_range

/-- Result of `wait_for` on a future (`std::future_status`). -/
inductive future_status where
  | ready
  | timeout
  | deferred
  deriving DecidableEq, Repr

/-- The `std::promise<void>` of an `AcqState`. A default-constructed promise
owns a shared state without a value; nothing in the controller moves from it,
so it always has a shared state. -/
structure promise where
  /-- Whether `set_value()` has stored the value: the stop signal is set. -/
  satisfied : Bool
  /-- Whether `get_future()` has been called. -/
  future_retrieved : Bool
  deriving DecidableEq, Repr

/-- The default constructor `std::promise<void>()`. -/
def promise.new : promise := ⟨false, false⟩

/-- The call `std::promise<void>::set_value()`: stores the value, or throws
`future_error(promise_already_satisfied)` when a value is already stored. -/
def promise.set_value (p : promise) : Except future_errc promise :=
  if p.satisfied then .error future_errc.promise_already_satisfied
  else .ok { p with satisfied := true }

/-- The call `std::promise<void>::get_future()`: throws
`future_error(future_already_retrieved)` on a second call. -/
def promise.get_future (p : promise) : Except future_errc promise :=
  if p.future_retrieved then .error future_errc.future_already_retrieved
  else .ok { p with future_retrieved := true }

/-- Position of the task body of lines 214-217,
`dataFinished.get(); acqFinished.get();`. -/
inductive JoinPosition where
  /-- Inside `dataFinished.get()`. -/
  | waitData
  /-- Inside `acqFinished.get()`. -/
  | waitAcq
  /-- The body has been left, by its return or by an exception that a
  `get()` rethrew: the future of the task is ready. -/
  | returned
  deriving DecidableEq, Repr

/-- The shared state behind `AcqState::finish` once `StartAcquisition` has
installed it: the task that joins the consumer pump and the producer. -/
structure FinishTask where
  /-- The future `dataFinished` of the consumer pump is ready. -/
  dataFinished : Bool
  /-- The future `acqFinished` of the producer is ready. -/
  acqFinished : Bool
  position : JoinPosition
  /-- The future `dataFinished` holds an exception, not a value: the pump was
  left by an exception. -/
  dataException : Bool
  /-- The future `acqFinished` holds an exception, not a value. -/
  acqException : Bool
  deriving DecidableEq, Repr

/-- Whether the future of the task holds an exception: the body was left by
the exception that `dataFinished.get()` or `acqFinished.get()` rethrew. -/
def FinishTask.holdsException (t : FinishTask) : Bool :=
  t.position = JoinPosition.returned ∧ (t.dataException ∨ t.acqException)

/-- A `std::shared_future<void>`: default-constructed (no shared state), or
referring to the task installed by `StartAcquisition`. -/
inductive shared_future where
  | no_state
  | task (t : FinishTask)
  deriving DecidableEq, Repr

/-- The call `finish.wait_for(0s)`. On a future without shared state the
behaviour is undefined (implementations throw `future_error(no_state)`). -/
def shared_future.wait_for_0s : shared_future → Except Fault future_status
  | .no_state => .error (Fault.future_error future_errc.no_state)
  | .task t =>
    if t.position = JoinPosition.returned then .ok future_status.ready
    else .ok future_status.timeout

/-- How a call that may block ends. -/
inductive Completion (α : Type) where
  /-- The call returns, leaving the state `a`. -/
  | returns (a : α)
  /-- The caller is suspended in `finish.get()` on a future that is not
  ready, the state being `a`; it resumes only once the task completes. -/
  | blocks (a : α)
  /-- The call does not return normally. -/
  | faults (f : Fault)

/-- The call `finish.get()` seen from the calling thread: `none` when the
future is ready and holds a value (the call returns at once),
`some (faults _)` when it is ready and holds an exception, which `get()`
rethrows, or has no shared state, and `some (blocks ())` when it is not
ready. -/
def shared_future.get : shared_future → Option (Completion Unit)
  | .no_state => some (.faults (Fault.future_error future_errc.no_state))
  | .task t =>
    if t.position = JoinPosition.returned then
      if t.holdsException then some (.faults Fault.stored_exception) else none
    else some (.blocks ())

/-! ## Device private data -/

/-- Values of `enum MarkerPolarity`. The source names `MarkerPolarityDisabled`
and `MarkerPolarityRisingEdge`; every other value of the enumeration is `other`. -/
inductive MarkerPolarity where
  | MarkerPolarityDisabled
  | MarkerPolarityRisingEdge
  | other (v : Nat)
  deriving DecidableEq, Repr

/-- Values of `enum PixelMappingMode`. The source names the two implemented
modes; every other value of the enumeration is `other`. -/
inductive PixelMappingMode where
  | PixelMappingModeLineStartMarkers
  | PixelMappingModeLineEndMarkers
  | other (v : Nat)
  deriving DecidableEq, Repr

/-- The struct `AcqState` (lines 17-29). -/
structure AcqState where
  finish : shared_future
  requestStop : promise
  deriving DecidableEq, Repr

/-- The expression `new AcqState()`: both members default-constructed. -/
def AcqState.new : AcqState := ⟨shared_future.no_state, promise.new⟩

/-- The fields of the device private data (`GetData(device)`) used by the
controller. `markerActiveEdges` is a C array with one entry per marker bit;
`acqState` is a pointer, `none` being `nullptr`. -/
structure PrivateData (NUM_MARKER_BITS : Nat) where
  moduleNr : Int
  markerActiveEdges : Fin NUM_MARKER_BITS → MarkerPolarity
  pixelMarkerBit : Nat
  lineMarkerBit : Nat
  frameMarkerBit : Nat
  pixelMappingMode : PixelMappingMode
  lineDelayPx : ℚ
  spcFilename : String
  acqState : Option AcqState

/-- Reading `markerActiveEdges[i]`: outside the array the behaviour is undefined. -/
def PrivateData.edge {N : Nat} (data : PrivateData N) (i : Nat) :
    Except Fault MarkerPolarity :=
  if h : i < N then .ok (data.markerActiveEdges ⟨i, h⟩) else .error Fault.out_of_range

/-- What `StartAcquisition` reads from the `OScDev_Acquisition` request. -/
structure OScDev_Acquisition where
  numberOfFrames : Nat
  pixelRate : ℚ
  xOffset : Nat
  yOffset : Nat
  width : Nat
  height : Nat

/-! ## Collaborators and the trace of calls -/

/-- The out-parameters and return value of `SetUpAcquisition`. -/
structure SetUpAcquisitionResult where
  err : Int
  fileHeader : List Nat
  fifoType : Int
  macroTimeUnitsTenthNs : Int

/-- Answers of the functions the controller calls but does not define.
`PixelsToMacroTime` (lines 87-90) is double-precision arithmetic followed by a
cast to `int32_t`; the value of its double expression, for arguments other
than zero pixels, is taken from here, as a function of its three arguments. `SetUpProcessing` answers `.ok ()` when the pipeline is built and
the consumer pump launched, and `.error Fault.bad_alloc` when histogram memory
cannot be allocated (the source handles no such exception, line 197). -/
structure Collaborators where
  SetMarkerPolarities : Int → Nat → Nat → Int
  SetUpAcquisition : Int → SetUpAcquisitionResult
  IsStandardFIFO : Int → Bool
  PixelsToMacroTime : ℚ → ℚ → Nat → Int
  SPCFileWriter_IsValid : String → List Nat → Bool
  SetUpProcessing : Nat → Nat → Nat → Int → Nat → Nat → Except Fault Unit

/-- Calls with an effect outside the device private data, in program order. -/
inductive Event where
  | delete_AcqState
  | new_AcqState
  | SetMarkerPolarities (moduleNr : Int) (enabled risingEdgeActive : Nat)
  | SetUpAcquisition (moduleNr : Int)
  | SPCFileWriter (spcFilename : String) (fileHeader : List Nat)
  /-- The pipeline is built and the consumer pump launched. -/
  | SetUpProcessing (width height maxFrames : Nat) (lineDelay : Int)
      (lineTime lineMarkerBit : Nat)
  | EventBufferPool (size : Nat)
  /-- The producer is launched. -/
  | StartAcquisitionStandardFIFO (moduleNr : Int)
  /-- The aggregate finish task of lines 214-217 is started and stored in `finish`. -/
  | install_finish
  deriving DecidableEq, Repr

/-- Whether an event launches a task of the pipeline or installs its finish. -/
def Event.startsPipeline : Event → Bool
  | .SetUpProcessing _ _ _ _ _ _ => true
  | .StartAcquisitionStandardFIFO _ => true
  | .install_finish => true
  | _ => false

/-! ## Machine integers -/

/-- Conversion to `int32_t` (two's complement). -/
def toInt32 (x : Int) : Int := (x + 2 ^ 31) % 2 ^ 32 - 2 ^ 31

/-- Conversion to `uint32_t`. -/
def toUInt32 (x : Int) : Nat := (x % 2 ^ 32).toNat

/-! ## The controller -/

/-- The function `RequestAcquisitionStop` (lines 32-46). -/
def RequestAcquisitionStop (acqState : AcqState) : Except Fault AcqState :=
  match acqState.requestStop.set_value with
  | .ok p => .ok { acqState with requestStop := p }
  | .error e =>
    if e = future_errc.promise_already_satisfied then
      -- Ok, somebody else already requested stop
      .ok acqState
    else
      .error (Fault.future_error e)

/-- The function `ResetAcquisitionState` (lines 49-61): return code, device
data afterwards, calls made. -/
def ResetAcquisitionState {N : Nat} (data : PrivateData N) :
    Except Fault (Int × PrivateData N × List Event) :=
  match data.acqState with
  | some acqState =>
    match acqState.finish.wait_for_0s with
    | .error f => .error f
    | .ok status =>
      if status ≠ future_status.ready then
        .ok (1, data, []) -- Acquisition already in progress
      else
        .ok (0, { data with acqState := some AcqState.new },
          [Event.delete_AcqState, Event.new_AcqState])
  | none => .ok (0, { data with acqState := some AcqState.new }, [Event.new_AcqState])

/-- The function `ShutdownAcquisitionState` (lines 71-84). -/
def ShutdownAcquisitionState {N : Nat} (data : PrivateData N) :
    Completion (PrivateData N × List Event) :=
  match data.acqState with
  | none => .returns (data, [])
  | some acqState =>
    match RequestAcquisitionStop acqState with
    | .error f => .faults f
    | .ok stopped =>
      match stopped.finish.get with
      | some (.faults f) => .faults f
      | some _ => .blocks ({ data with acqState := some stopped }, [])
      | none => .returns ({ data with acqState := none }, [Event.delete_AcqState])

/-- The masks built by the loop of `ConfigureMarkers` (lines 96-101) after its
first `k` iterations: `(enabled, risingEdgeActive)`, both `uint16_t`. -/
def ConfigureMarkers.loop {N : Nat} (data : PrivateData N) :
    Nat → Except Fault (Nat × Nat)
  | 0 => .ok (0, 0)
  | i + 1 => do
    let (enabled, risingEdgeActive) ← ConfigureMarkers.loop data i
    let edge ← data.edge i
    let e : Nat := if edge ≠ MarkerPolarity.MarkerPolarityDisabled then 1 else 0
    let r : Nat := if edge = MarkerPolarity.MarkerPolarityRisingEdge then 1 else 0
    return ((enabled ||| (e <<< i)) % 2 ^ 16, (risingEdgeActive ||| (r <<< i)) % 2 ^ 16)

/-- The function `ConfigureMarkers` (lines 93-103): return code and calls made. -/
def ConfigureMarkers {NUM_MARKER_BITS : Nat} (co : Collaborators)
    (data : PrivateData NUM_MARKER_BITS) : Except Fault (Int × List Event) := do
  let (enabled, risingEdgeActive) ← ConfigureMarkers.loop data NUM_MARKER_BITS
  return (co.SetMarkerPolarities data.moduleNr enabled risingEdgeActive,
    [Event.SetMarkerPolarities data.moduleNr enabled risingEdgeActive])

/-- The function `CheckMarkers` (lines 106-136). -/
def CheckMarkers {NUM_MARKER_BITS : Nat} (data : PrivateData NUM_MARKER_BITS) :
    Except Fault Int := do
  -- Pixel, line, and frame markers must all differ if enabled
  let mut usedMarkers := bitset.empty NUM_MARKER_BITS
  if data.pixelMarkerBit < NUM_MARKER_BITS then
    usedMarkers ← usedMarkers.set data.pixelMarkerBit
  if data.lineMarkerBit < NUM_MARKER_BITS then
    if (← usedMarkers.test data.lineMarkerBit) then
      return 1 -- Duplicate marker assignment
    usedMarkers ← usedMarkers.set data.lineMarkerBit
  if data.frameMarkerBit < NUM_MARKER_BITS then
    if (← usedMarkers.test data.frameMarkerBit) then
      return 1 -- Duplicate marker assignment
  -- Line marker must be assigned and enabled (until we support pixel marker)
  if data.lineMarkerBit ≥ NUM_MARKER_BITS then
    return 1 -- Line marker required
  if (← data.edge data.lineMarkerBit) = MarkerPolarity.MarkerPolarityDisabled then
    return 1 -- Line marker required
  return 0

/-- What a call of `StartAcquisition` leaves behind when it returns: its
return code, the device data, and the calls it made. -/
structure StartResult (N : Nat) where
  code : Int
  data : PrivateData N
  trace : List Event

/-- The function `PixelsToMacroTime` (lines 87-90),
`static_cast<int32_t>(std::round(1e10 * pixels / pixelRateHz / unitsTenthNs))`.
With `pixels` zero and both divisors not zero, every intermediate double is a
zero, exactly, and the result is 0. For other arguments the value of the
double expression is the answer of the collaborators record, the rounding of
double arithmetic not being modelled; the result is an `int32_t`. -/
def PixelsToMacroTime (co : Collaborators) (pixels pixelRateHz : ℚ) (unitsTenthNs : Nat) :
    Int :=
  if pixels = 0 ∧ pixelRateHz ≠ 0 ∧ unitsTenthNs ≠ 0 then 0
  else toInt32 (co.PixelsToMacroTime pixels pixelRateHz unitsTenthNs)

/-- The variable `lineTime` of `StartAcquisition` (line 186): the `int32_t`
result of `PixelsToMacroTime` stored in a `uint32_t`. -/
def StartAcquisition.lineTime (co : Collaborators) (acq : OScDev_Acquisition)
    (macroTimeUnitsTenthNs : Int) : Nat :=
  toUInt32 (PixelsToMacroTime co (acq.width : ℚ) acq.pixelRate
    (toUInt32 macroTimeUnitsTenthNs))

/-- The variable `lineDelay` of `StartAcquisition` as passed to the pipeline
(lines 187-190): an `int32_t`, from which the `uint32_t` `lineTime` is
subtracted when line markers are at line ends. -/
def StartAcquisition.lineDelay (co : Collaborators) (lineDelayPixels : ℚ)
    (acq : OScDev_Acquisition) (macroTimeUnitsTenthNs : Int)
    (lineMarkersAtLineEnds : Bool) : Int :=
  let lineTime := StartAcquisition.lineTime co acq macroTimeUnitsTenthNs
  let lineDelay : Int :=
    PixelsToMacroTime co lineDelayPixels acq.pixelRate (toUInt32 macroTimeUnitsTenthNs)
  if lineMarkersAtLineEnds then toInt32 (lineDelay - lineTime) else lineDelay

/-- The last part of `StartAcquisition` (lines 197-219), reached once every
check has passed: builds the pipeline, launches the consumer pump and the
producer, installs the aggregate finish and returns 0. `acqState` is the
local pointer of line 145, dereferenced at line 209. -/
def StartAcquisition.launch {N : Nat} (co : Collaborators) (data : PrivateData N)
    (acq : OScDev_Acquisition) (acqState : Option AcqState) (trace : List Event)
    (lineDelay : Int) (lineTime : Nat) : Except Fault (StartResult N) := do
  -- TODO Handle bad_alloc if we cannot allocate histogram memory
  co.SetUpProcessing acq.width acq.height acq.numberOfFrames lineDelay lineTime
    data.lineMarkerBit
  let trace := trace ++ [Event.SetUpProcessing acq.width acq.height acq.numberOfFrames
    lineDelay lineTime data.lineMarkerBit]
  -- 48k events = ~5 ms at 10M events/s
  let trace := trace ++ [Event.EventBufferPool (48 * 1024)]
  let requestStop ← match acqState with
    | none => throw Fault.null_dereference
    | some a =>
      match a.requestStop.get_future with
      | .ok p => pure p
      | .error e => throw (Fault.future_error e)
  let trace := trace ++ [Event.StartAcquisitionStandardFIFO data.moduleNr]
  let finish := shared_future.task ⟨false, false, JoinPosition.waitData, false, false⟩
  let trace := trace ++ [Event.install_finish]
  return ⟨0, { data with acqState := some ⟨finish, requestStop⟩ }, trace⟩

/-- The function `StartAcquisition` (lines 139-220). -/
def StartAcquisition {N : Nat} (co : Collaborators) (device : PrivateData N)
    (acq : OScDev_Acquisition) : Except Fault (StartResult N) := do
  let (err, data, trace) ← ResetAcquisitionState device
  if err ≠ 0 then
    return ⟨err, data, trace⟩
  let acqState := data.acqState

  let (err, calls) ← ConfigureMarkers co data
  let trace := trace ++ calls
  if err ≠ 0 then
    return ⟨err, data, trace⟩

  let err ← CheckMarkers data
  if err ≠ 0 then
    return ⟨err, data, trace⟩

  let lineMarkersAtLineEnds ← match data.pixelMappingMode with
    | .PixelMappingModeLineStartMarkers => pure false
    | .PixelMappingModeLineEndMarkers => pure true
    | .other _ => return ⟨1, data, trace⟩ -- Unimplemented mode

  let setUp := co.SetUpAcquisition data.moduleNr
  let trace := trace ++ [Event.SetUpAcquisition data.moduleNr]
  if setUp.err ≠ 0 then
    return ⟨setUp.err, data, trace⟩
  if ¬ co.IsStandardFIFO setUp.fifoType then
    return ⟨1, data, trace⟩ -- Unsupported data format

  let lineTime := StartAcquisition.lineTime co acq setUp.macroTimeUnitsTenthNs
  let lineDelay := StartAcquisition.lineDelay co data.lineDelayPx acq
    setUp.macroTimeUnitsTenthNs lineMarkersAtLineEnds

  let trace := trace ++ [Event.SPCFileWriter data.spcFilename setUp.fileHeader]
  if ¬ co.SPCFileWriter_IsValid data.spcFilename setUp.fileHeader then
    return ⟨1, data, trace⟩ -- Cannot open spc file

  StartAcquisition.launch co data acq acqState trace lineDelay lineTime

/-- The function `StopAcquisition` (lines 223-230). -/
def StopAcquisition {N : Nat} (data : PrivateData N) : Except Fault (PrivateData N) :=
  match data.acqState with
  | none => .ok data
  | some acqState =>
    match RequestAcquisitionStop acqState with
    | .error f => .error f
    | .ok stopped => .ok { data with acqState := some stopped }

/-- The function `IsAcquisitionRunning` (lines 233-241). -/
def IsAcquisitionRunning {N : Nat} (data : PrivateData N) : Except Fault Bool :=
  match data.acqState with
  | none => .ok false
  | some acqState =>
    match acqState.finish.wait_for_0s with
    | .error f => .error f
    | .ok status => .ok (decide (status ≠ future_status.ready))

/-- The function `WaitForAcquisitionToFinish` (lines 244-251). -/
def WaitForAcquisitionToFinish {N : Nat} (data : PrivateData N) :
    Completion (PrivateData N) :=
  match data.acqState with
  | none => .returns data
  | some acqState =>
    match acqState.finish.get with
    | some (.faults f) => .faults f
    | some _ => .blocks data
    | none => .returns data

/-! ## The data stream (`src/DataStream.cpp`) -/

/-- Modelled from the spec: the class `Histogram<T>` of `FLIMEvents/Histogram.hpp`,
which is not among the sources. A dense array of counts indexed by
`[line][pixel][microtimeBin]`, with `2 ^ histoBits` microtime bins per pixel
and spatial extent `width x height`; `counts` is the array, bin
`[line][pixel][t]` at index `(line * width + pixel) * 2 ^ histoBits + t`. -/
structure Histogram where
  histoBits : Nat
  inputBits : Nat
  width : Nat
  height : Nat
  counts : List Nat
  deriving DecidableEq, Repr

/-- Modelled from the spec: the number of counts of a histogram,
`width x height x 2 ^ histoBits`. -/
def Histogram.GetNumberOfElements (h : Histogram) : Nat :=
  h.width * h.height * 2 ^ h.histoBits

/-- Modelled from the spec: the constructor
`Histogram<T>(histoBits, inputBits, true, width, height)`. The contents of a
new histogram are whatever the allocation holds: `memory i` at index `i`. -/
def Histogram.new (histoBits inputBits width height : Nat) (memory : Nat → Nat) :
    Histogram :=
  ⟨histoBits, inputBits, width, height,
    (List.range (width * height * 2 ^ histoBits)).map memory⟩

/-- Modelled from the spec: `Histogram<T>::Clear()` sets every count to zero. -/
def Histogram.Clear (h : Histogram) : Histogram :=
  { h with counts := List.replicate h.counts.length 0 }

/-- The calls of the interface `HistogramProcessor<SampleType>` that the two
sinks of `DataStream.cpp` override. -/
inductive HistogramCall where
  | HandleError (message : String)
  | HandleFrame (histogram : Histogram)
  | HandleFinish (histogram : Histogram) (isCompleteFrame : Bool)
  deriving DecidableEq, Repr

/-- Whether a call is terminal, that is `HandleError` or `HandleFinish`. -/
def HistogramCall.isTerminal : HistogramCall → Bool
  | .HandleFrame _ => false
  | _ => true

/-- Calls the sinks make to their collaborators: the completion tracker
(`AcquisitionCompletion`), the host frame callback and the writer (`SDTWriter`). -/
inductive SinkCall where
  | AcquisitionCompletion_AddProcess (process : String)
  | AcquisitionCompletion_HandleError (message : String) (process : String)
  | AcquisitionCompletion_HandleFinish (process : String)
  | OScDev_Acquisition_CallFrameCallback (channel : Nat) (data : List Nat)
  | SDTWriter_HandleError (message : String)
  | SDTWriter_SetHistogram (channel : Nat) (histogram : Histogram)
  deriving DecidableEq, Repr

/-- Whether a call goes to the completion tracker. -/
def SinkCall.toCompletion : SinkCall → Bool
  | .AcquisitionCompletion_AddProcess _ => true
  | .AcquisitionCompletion_HandleError _ _ => true
  | .AcquisitionCompletion_HandleFinish _ => true
  | _ => false

/-- Whether a call reports the end of a process to the completion tracker
(`HandleError` or `HandleFinish` of `AcquisitionCompletion`). -/
def SinkCall.isReport : SinkCall → Bool
  | .AcquisitionCompletion_HandleError _ _ => true
  | .AcquisitionCompletion_HandleFinish _ => true
  | _ => false

/-- Whether a call invokes the host frame callback. -/
def SinkCall.isFrameCallback : SinkCall → Bool
  | .OScDev_Acquisition_CallFrameCallback _ _ => true
  | _ => false

/-- Whether a call goes to the writer. -/
def SinkCall.toWriter : SinkCall → Bool
  | .SDTWriter_HandleError _ => true
  | .SDTWriter_SetHistogram _ _ => true
  | _ => false

/-- The class `IntensityImageSink` (lines 17-51). The member `downstream` is a
shared pointer to the completion tracker: `true` while it is non-null. The
member `acquisition` only names the receiver of the frame callback. -/
structure IntensityImageSink where
  downstream : Bool
  deriving DecidableEq, Repr

/-- The constructor of `IntensityImageSink` (lines 22-30): the sink and the
calls made. -/
def IntensityImageSink.new (downstream : Bool) : IntensityImageSink × List SinkCall :=
  if downstream then
    (⟨downstream⟩, [SinkCall.AcquisitionCompletion_AddProcess "IntensityImage"])
  else
    (⟨downstream⟩, [])

/-- The method `IntensityImageSink::HandleError` (lines 32-37). -/
def IntensityImageSink.HandleError (sink : IntensityImageSink) (message : String) :
    IntensityImageSink × List SinkCall :=
  if sink.downstream then
    (⟨false⟩, [SinkCall.AcquisitionCompletion_HandleError
      ("Stopping intensity images due to error: " ++ message) "IntensityImage"])
  else
    (sink, [])

/-- The method `IntensityImageSink::HandleFrame` (lines 39-43). -/
def IntensityImageSink.HandleFrame (sink : IntensityImageSink) (histogram : Histogram) :
    IntensityImageSink × List SinkCall :=
  (sink, [SinkCall.OScDev_Acquisition_CallFrameCallback 0 histogram.counts])

/-- The method `IntensityImageSink::HandleFinish` (lines 45-50). -/
def IntensityImageSink.HandleFinish (sink : IntensityImageSink) (_histogram : Histogram)
    (_isCompleteFrame : Bool) : IntensityImageSink × List SinkCall :=
  if sink.downstream then
    (⟨false⟩, [SinkCall.AcquisitionCompletion_HandleFinish "IntensityImage"])
  else
    (sink, [])

/-- Virtual dispatch of one `HistogramProcessor` call to an `IntensityImageSink`. -/
def IntensityImageSink.call (sink : IntensityImageSink) :
    HistogramCall → IntensityImageSink × List SinkCall
  | .HandleError message => sink.HandleError message
  | .HandleFrame histogram => sink.HandleFrame histogram
  | .HandleFinish histogram isCompleteFrame => sink.HandleFinish histogram isCompleteFrame

/-- A sequence of calls on an `IntensityImageSink`: the sink afterwards and
the calls it made, in order. -/
def IntensityImageSink.calls (sink : IntensityImageSink) :
    List HistogramCall → IntensityImageSink × List SinkCall
  | [] => (sink, [])
  | c :: rest =>
    let (sink1, out1) := sink.call c
    let (sink2, out2) := IntensityImageSink.calls sink1 rest
    (sink2, out1 ++ out2)

/-- The class `HistogramSink` (lines 53-81). The member `sdtWriter` is a
shared pointer to the writer: `true` while it is non-null. -/
structure HistogramSink where
  channel : Nat
  sdtWriter : Bool
  deriving DecidableEq, Repr

/-- The constructor of `HistogramSink` (lines 58-61). -/
def HistogramSink.new (channel : Nat) (sdtWriter : Bool) : HistogramSink :=
  ⟨channel, sdtWriter⟩

/-- The method `HistogramSink::HandleError` (lines 63-68). -/
def HistogramSink.HandleError (sink : HistogramSink) (message : String) :
    HistogramSink × List SinkCall :=
  if sink.sdtWriter then
    ({ sink with sdtWriter := false }, [SinkCall.SDTWriter_HandleError message])
  else
    (sink, [])

/-- The method `HistogramSink::HandleFrame` (lines 70-72). -/
def HistogramSink.HandleFrame (sink : HistogramSink) (_histogram : Histogram) :
    HistogramSink × List SinkCall :=
  -- Nothing to do until we finish
  (sink, [])

/-- The method `HistogramSink::HandleFinish` (lines 74-80). -/
def HistogramSink.HandleFinish (sink : HistogramSink) (histogram : Histogram)
    (_isCompleteFrame : Bool) : HistogramSink × List SinkCall :=
  if sink.sdtWriter then
    ({ sink with sdtWriter := false }, [SinkCall.SDTWriter_SetHistogram sink.channel histogram])
  else
    (sink, [])

/-- Virtual dispatch of one `HistogramProcessor` call to a `HistogramSink`. -/
def HistogramSink.call (sink : HistogramSink) : HistogramCall → HistogramSink × List SinkCall
  | .HandleError message => sink.HandleError message
  | .HandleFrame histogram => sink.HandleFrame histogram
  | .HandleFinish histogram isCompleteFrame => sink.HandleFinish histogram isCompleteFrame

/-- A sequence of calls on a `HistogramSink`: the sink afterwards and the
calls it made, in order. -/
def HistogramSink.calls (sink : HistogramSink) :
    List HistogramCall → HistogramSink × List SinkCall
  | [] => (sink, [])
  | c :: rest =>
    let (sink1, out1) := sink.call c
    let (sink2, out2) := HistogramSink.calls sink1 rest
    (sink2, out1 ++ out2)

/-- An `EventBuffer<E>` as the pump sees it: what `GetData()` points to and
what `GetSize()` returns. -/
structure EventBuffer where
  data : List Nat
  size : Nat
  deriving DecidableEq, Repr

/-- One call of `stream->ReceiveBlocking()`: it returns a buffer pointer,
null (`none`) at the end of the stream, or throws an exception with the
given `what()`. -/
inductive Received where
  | returns (buffer : Option EventBuffer)
  | throws (what : String)
  deriving DecidableEq, Repr

/-- Calls the pump makes on the processors of its array; `processor` is the
index in the array. The handlers are taken to return normally. -/
inductive ProcessorCall where
  | HandleDeviceEvents (processor : Nat) (data : List Nat) (size : Nat)
  | HandleError (processor : Nat) (message : String)
  | HandleFinish (processor : Nat)
  deriving DecidableEq, Repr

/-- The index of the processor a call is made on. -/
def ProcessorCall.processor : ProcessorCall → Nat
  | .HandleDeviceEvents p _ _ => p
  | .HandleError p _ => p
  | .HandleFinish p => p

/-- The loop `for (auto& p : processors)` over an array of `N` processors. -/
def forEachProcessor (N : Nat) (f : Nat → ProcessorCall) : List ProcessorCall :=
  (List.range N).map f

/-- The function `PumpDeviceEvents` (lines 85-113) for an array of `N`
processors. The stream is given by the results of its successive
`ReceiveBlocking` calls. The result is the calls made on the processors, in
order, and whether the function has returned; it has not when the stream
yields neither an end nor an exception, `ReceiveBlocking` blocking for ever. -/
def PumpDeviceEvents (N : Nat) : List Received → List ProcessorCall × Bool
  | [] => ([], false)
  | .throws what :: _ => (forEachProcessor N (fun p => ProcessorCall.HandleError p what), true)
  | .returns none :: _ => (forEachProcessor N (fun p => ProcessorCall.HandleFinish p), true)
  | .returns (some buffer) :: stream =>
    let (calls, returned) := PumpDeviceEvents N stream
    (forEachProcessor N (fun p => ProcessorCall.HandleDeviceEvents p buffer.data buffer.size)
      ++ calls, returned)

/-- Modelled from the spec: the class `HistogramAccumulator<T>` of
`FLIMEvents/Histogram.hpp`, which is not among the sources. It retains the
cumulative histogram and has a downstream `HistogramProcessor`. -/
structure HistogramAccumulator (D : Type) where
  cumulative : Histogram
  downstream : D

/-- Modelled from the spec: on each frame boundary the accumulator adds the
frame histogram element-wise into the cumulative histogram and forwards the
frame histogram downstream, retaining the cumulative one. The bins are of the
type `SampleType = uint16_t` (line 13), with which both branches are built:
the addition is that of `uint16_t`, modulo 2^16. The result is the
accumulator afterwards and the calls forwarded to `downstream`. -/
def HistogramAccumulator.HandleFrame {D : Type} (acc : HistogramAccumulator D)
    (frame : Histogram) : HistogramAccumulator D × List HistogramCall :=
  ({ acc with
      cumulative :=
        { acc.cumulative with
          counts :=
            List.zipWith (fun c f => (c + f) % 2 ^ 16) acc.cumulative.counts frame.counts } },
    [HistogramCall.HandleFrame frame])

/-- Modelled from the spec: the class `Histogrammer<T>` of
`FLIMEvents/Histogram.hpp`, which is not among the sources: it owns the frame
histogram and hands it to its accumulator on each frame boundary. -/
structure Histogrammer (D : Type) where
  frameHisto : Histogram
  downstream : HistogramAccumulator D

/-- The function `MakeCumulativeHistogrammer` (lines 116-127). `frameMemory`
and `cumulMemory` are the contents of the two allocations before anything is
written to them. -/
def MakeCumulativeHistogrammer {D : Type} (histoBits inputBits width height : Nat)
    (downstream : D) (frameMemory cumulMemory : Nat → Nat) : Histogrammer D :=
  let frameHisto := Histogram.new histoBits inputBits width height frameMemory
  let cumulHisto := Histogram.new histoBits inputBits width height cumulMemory
  let cumulHisto := cumulHisto.Clear
  ⟨frameHisto, ⟨cumulHisto, downstream⟩⟩

/-- Modelled from the spec: the class `BroadcastPixelPhotonProcessor<2>` of
FLIMEvents, which is not among the sources: a broadcast stage that fans one
pixel-event stream out to its two downstream consumers. -/
structure BroadcastPixelPhotonProcessor (A B : Type) where
  first : A
  second : B

/-- Modelled from the spec: the class `LineClockPixellator` of FLIMEvents,
which is not among the sources; it is given by the arguments of its
constructor. -/
structure LineClockPixellator (D : Type) where
  width : Nat
  height : Nat
  maxFrames : Nat
  lineDelay : Int
  lineTime : Nat
  lineMarkerBit : Nat
  downstream : D

/-- Modelled from the spec: the class `BHSPCEventDecoder` of FLIMEvents, which
is not among the sources; it is given by the argument of its constructor. -/
structure BHSPCEventDecoder (D : Type) where
  downstream : D

/-- The two histogram branches behind the broadcast stage of `SetUpProcessing`. -/
abbrev Histogrammers :=
  BroadcastPixelPhotonProcessor (Histogrammer IntensityImageSink) (Histogrammer HistogramSink)

/-- What `SetUpProcessing` has built when it launches the pump: the array
`procs` of the two device-event processors, the first being the decoder. The
second, `additionalProcessor`, is the caller's. -/
structure ProcessingGraph where
  decoder : BHSPCEventDecoder (LineClockPixellator Histogrammers)

/-- The function `SetUpProcessing` (DataStream.cpp, lines 133-176), up to the
launch of the pump: the graph built and the calls made on the way.
`histogramWriter` and `completion` tell whether the two shared pointers are
non-null; `memory k` is the content of the `k`-th histogram allocation. -/
def SetUpProcessing (width height maxFrames : Nat) (lineDelay : Int)
    (lineTime lineMarkerBit : Nat) (histogramWriter completion : Bool)
    (memory : Nat → Nat → Nat) : ProcessingGraph × List SinkCall :=
  let inputBits := 12
  let intensityBits := 0 -- Intensity image is 0-bit histogram
  let histoBits := 8 -- TODO Configurable
  -- Construct our processing graph starting at downstream.
  let (intensitySink, calls) := IntensityImageSink.new completion
  let histoSink := HistogramSink.new 0 histogramWriter
  let intensityProc :=
    MakeCumulativeHistogrammer intensityBits inputBits width height intensitySink
      (memory 0) (memory 1)
  let histoProc :=
    MakeCumulativeHistogrammer histoBits inputBits width height histoSink
      (memory 2) (memory 3)
  let histogrammers : Histogrammers := ⟨intensityProc, histoProc⟩
  let pixellator : LineClockPixellator Histogrammers :=
    ⟨width, height, maxFrames, lineDelay, lineTime, lineMarkerBit, histogrammers⟩
  let decoder : BHSPCEventDecoder (LineClockPixellator Histogrammers) := ⟨pixellator⟩
  (⟨decoder⟩, calls)

/-! ## The legacy acquisition (`src/BH_SPC150.c`) -/

/-- The loop of lines 332-337 of `ReadoutLoop` for one pixel: the value of
the `uint16_t` counter `pixelPhotonCount` and the photons left in the buffer. -/
def ReadoutLoop.countPixel (nextPixelStartTime : Nat) : List Nat → Nat → Nat × List Nat
  | [], pixelPhotonCount => (pixelPhotonCount, [])
  | mtime :: rest, pixelPhotonCount =>
    if mtime < nextPixelStartTime then
      ReadoutLoop.countPixel nextPixelStartTime rest ((pixelPhotonCount + 1) % 2 ^ 16)
    else
      (pixelPhotonCount, mtime :: rest)

/-- The loop of lines 328-341 of `ReadoutLoop` from `pixel` on, with `n`
iterations to go: the counts stored in `frameBuffer[lineNr * width + pixel]`
and the following entries. Times are `uint64_t`. The fields `pixelTime` and
`width` are declared in `BH_SPC150Private.h`, not among the sources: a
product with them is taken in an unsigned type of `productBits` bits. -/
def ReadoutLoop.pixels (productBits startOfLineTime pixelTime : Nat) :
    Nat → Nat → List Nat → List Nat
  | 0, _, _ => []
  | n + 1, pixel, buffered =>
    let pixelStartTime := (startOfLineTime + pixel * pixelTime % 2 ^ productBits) % 2 ^ 64
    let nextPixelStartTime := (pixelStartTime + pixelTime) % 2 ^ 64
    let counted := ReadoutLoop.countPixel nextPixelStartTime buffered 0
    counted.1 :: ReadoutLoop.pixels productBits startOfLineTime pixelTime n (pixel + 1) counted.2

/-- The microtime bin of lines 1306-1307 of `BH_saveLTDataSDT` (and 938-939
of `extractPhoton`), `(int)((float)micro_time * 256 / 4000)`. For a 16-bit
`micro_time` the product is exact in single precision, and the quotient is
either an integer or at least 1/125 away from one, far more than the rounding
of the division: the truncation is the integer quotient. -/
def microtimeBin (micro_time : Nat) : Nat := micro_time * 256 / 4000

/-- The index written in `iPhotonCountBuffer` at line 1311, for the bin
`loc` of pixel `locPix` of line `tempLin`. -/
def photonCountIndex (pixelsPerLine tempLin locPix loc : Nat) : Nat :=
  tempLin * pixelsPerLine * 2 ^ 8 + locPix * 2 ^ 8 + loc

/-- The sum of the first `i` 16-bit words of the header, as the `unsigned
short` accumulator `chksum` of `compute_checksum` holds it after `i`
iterations (lines 1438-1441). `hdr k` is the word `ptr[k]`. -/
def compute_checksum.loop (hdr : Nat → Nat) : Nat → Nat
  | 0 => 0
  | i + 1 => (compute_checksum.loop hdr i + hdr i % 2 ^ 16) % 2 ^ 16

/-- The function `compute_checksum` (lines 1433-1444). `BH_HDR_LENGTH` and
`BH_HEADER_CHKSUM` are macros of the vendor's header, not among the sources:
parameters here. The result is an `unsigned short`. -/
def compute_checksum (BH_HDR_LENGTH : Nat) (BH_HEADER_CHKSUM : Int) (hdr : Nat → Nat) : Nat :=
  let chksum := compute_checksum.loop hdr (BH_HDR_LENGTH / 2 - 1)
  ((-(chksum : Int) + BH_HEADER_CHKSUM) % 2 ^ 16).toNat

/-- Values of `OSc_Error` that `BH_SPC150.c` returns from the functions below. -/
inductive OSc_Error where
  | OSc_Error_OK
  | OSc_Error_Acquisition_Running
  | OSc_Error_Unknown
  deriving DecidableEq, Repr

/-- The fields of the vendor's `SPCdata` that `BH_ArmDetector` reads or writes. -/
structure SPCdata where
  mode : Nat
  routing_mode : Nat
  scan_polarity : Nat
  scan_size_x : Nat
  scan_size_y : Nat
  adc_resolution : Nat
  collect_time : ℚ
  stop_on_ovfl : Nat
  stop_on_time : Nat
  deriving DecidableEq, Repr

/-- Answers of the vendor library to the calls of `BH_ArmDetector`, one per
call site, and the two mode constants of its header. An answer to
`SPC_get_parameters` is the return value and the content of `spcData`
afterwards. The return values of the calls of lines 1353 and 1358 are
overwritten unread; that of line 1358 has no answer here. -/
structure SPCM where
  ROUT_OUT : Nat
  FIFO_32M : Nat
  /-- Line 1353. -/
  SPC_get_parameters_first : Int × SPCdata
  /-- Line 1360. -/
  SPC_get_parameters_second : Int × SPCdata
  /-- Line 1377. -/
  SPC_enable_sequencer : Int
  /-- Line 1395. -/
  SPC_set_parameters_second : SPCdata → Int
  /-- Line 1402: return value, `fifoType`, `streamType`, `initMacroClock`. -/
  SPC_get_fifo_init_vars : Int × Int × Int × Int
  /-- Line 1414: the stream handle. -/
  SPC_init_buf_stream : Int

/-- The fields of `struct AcqPrivateData` that `BH_ArmDetector`, `BH_IsRunning`
and `BH_Wait` read or write. `frameBuffer` is the size in bytes of the
allocation it points to, `acquisition` the request it points to, `thread`
whether a thread handle has been stored. -/
structure AcqPrivateData where
  isRunning : Bool
  stopRequested : Bool
  width : Nat
  height : Nat
  frameBuffer : Option Nat
  pixelTime : Nat
  initVariableTyope : Int
  fifo_type : Int
  streamHandle : Int
  acquisition : Option Nat
  wroteHeader : Bool
  fileName : String
  thread : Bool
  deriving DecidableEq, Repr

/-- Calls of `BH_ArmDetector` with an effect outside `AcqPrivateData`. -/
inductive ArmCall where
  | SPC_get_parameters (moduleNr : Int)
  | SPC_set_parameters (moduleNr : Int) (spcData : SPCdata)
  | malloc (size : Nat)
  | SPC_enable_sequencer (moduleNr : Int) (enable : Int)
  | SPC_get_fifo_init_vars (moduleNr : Int)
  | SPC_init_buf_stream (fifoType streamType whatToRead initMacroClock : Int)
  | CreateThread_AcquireExtractLoop
  deriving DecidableEq, Repr

/-- The part of `BH_ArmDetector` after its second `SPC_get_parameters`
succeeded (lines 1370-1430). -/
def BH_ArmDetector.arm (spc : SPCM) (moduleNr : Int) (privAcq : AcqPrivateData)
    (acq : Nat) (spcData : SPCdata) (trace : List ArmCall) :
    OSc_Error × AcqPrivateData × List ArmCall :=
  let privAcq := { privAcq with width := 256, height := 256 }
  let nPixels := privAcq.width * privAcq.height
  let privAcq := { privAcq with frameBuffer := some (nPixels * 2) }
  let trace := trace ++ [ArmCall.malloc (nPixels * 2)]
  -- Units of 0.1 ns (same as macro clock); TODO get this from scanner
  let privAcq := { privAcq with pixelTime := 50000 }
  let spcRet := spc.SPC_enable_sequencer
  let trace := trace ++ [ArmCall.SPC_enable_sequencer moduleNr 0]
  if spcRet ≠ 0 then
    (OSc_Error.OSc_Error_Unknown, privAcq, trace)
  else
    let spcData :=
      if spcData.mode ≠ spc.ROUT_OUT ∧ spcData.mode ≠ spc.FIFO_32M then
        { spcData with mode := spc.ROUT_OUT }
      else spcData
    let spcData := { spcData with routing_mode := spcData.routing_mode &&& 0xfff8 }
    let spcData :=
      { spcData with routing_mode := spcData.routing_mode ||| (spcData.scan_polarity &&& 0x07) }
    let spcData :=
      if spcData.mode = spc.ROUT_OUT then
        { spcData with routing_mode := spcData.routing_mode ||| 0x0f00 }
      else
        { spcData with routing_mode := spcData.routing_mode ||| 0x0800 }
    -- We explicitly stop after the desired number of frames
    let spcData := { spcData with stop_on_ovfl := 0, stop_on_time := 0 }
    let spcRet := spc.SPC_set_parameters_second spcData
    let trace := trace ++ [ArmCall.SPC_set_parameters moduleNr spcData]
    if spcRet ≠ 0 then
      (OSc_Error.OSc_Error_Unknown, privAcq, trace)
    else
      let (ret, fifoType, streamType, initMacroClock) := spc.SPC_get_fifo_init_vars
      let privAcq := { privAcq with initVariableTyope := ret }
      let spcRet := privAcq.initVariableTyope
      let trace := trace ++ [ArmCall.SPC_get_fifo_init_vars moduleNr]
      if spcRet ≠ 0 then
        (OSc_Error.OSc_Error_Unknown, privAcq, trace)
      else
        let privAcq := { privAcq with fifo_type := fifoType }
        let whatToRead : Nat := 0x0001 ||| 0x0002 ||| 0x0004 ||| 0x0008 ||| 0x0010 ||| 0x0020
        let privAcq := { privAcq with streamHandle := spc.SPC_init_buf_stream }
        let trace := trace ++
          [ArmCall.SPC_init_buf_stream fifoType streamType (whatToRead : Int) initMacroClock]
        let privAcq :=
          { privAcq with
            acquisition := some acq, wroteHeader := false,
            fileName := "D:\\Documents\\BH_data\\TODO.spc" }
        let privAcq := { privAcq with stopRequested := false }
        let privAcq := { privAcq with thread := true }
        let trace := trace ++ [ArmCall.CreateThread_AcquireExtractLoop]
        (OSc_Error.OSc_Error_OK, privAcq, trace)

/-- The part of `BH_ArmDetector` after its critical section (lines
1351-1430), on the acquisition data as the critical section left it. -/
def BH_ArmDetector.configure (spc : SPCM) (moduleNr : Int) (privAcq : AcqPrivateData)
    (acq : Nat) : OSc_Error × AcqPrivateData × List ArmCall :=
  let spcData := spc.SPC_get_parameters_first.2
  let trace := [ArmCall.SPC_get_parameters moduleNr]
  let spcData :=
    { spcData with
      scan_size_x := 256, scan_size_y := 256, adc_resolution := 8, collect_time := 10 }
  let trace := trace ++ [ArmCall.SPC_set_parameters moduleNr spcData]
  let spcRet := spc.SPC_get_parameters_second.1 -- debugging purpose
  let spcData := spc.SPC_get_parameters_second.2
  let trace := trace ++ [ArmCall.SPC_get_parameters moduleNr]
  if spcRet ≠ 0 then
    (OSc_Error.OSc_Error_Unknown, privAcq, trace)
  else
    BH_ArmDetector.arm spc moduleNr privAcq acq spcData trace

/-- The function `BH_ArmDetector` (lines 1335-1431): the code returned, the
acquisition data afterwards, the calls made. -/
def BH_ArmDetector (spc : SPCM) (moduleNr : Int) (privAcq : AcqPrivateData) (acq : Nat) :
    OSc_Error × AcqPrivateData × List ArmCall :=
  if privAcq.isRunning then
    (OSc_Error.OSc_Error_Acquisition_Running, privAcq, [])
  else
    let privAcq := { privAcq with stopRequested := false }
    let privAcq := { privAcq with isRunning := true }
    BH_ArmDetector.configure spc moduleNr privAcq acq

/-- The function `BH_IsRunning` (lines 1461-1467): the code returned and the
value stored in `*isRunning`. -/
def BH_IsRunning (privAcq : AcqPrivateData) : OSc_Error × Bool :=
  (OSc_Error.OSc_Error_OK, privAcq.isRunning)

/-- The function `BH_Wait` (lines 1470-1480): it returns `err` once
`isRunning` is false, and sleeps on the condition variable while it is true. -/
def BH_Wait (privAcq : AcqPrivateData) : Completion OSc_Error :=
  let err := OSc_Error.OSc_Error_OK
  if privAcq.isRunning then .blocks err else .returns err

/-! ## Decoded events (`FLIMEvents/DecodedEvent.hpp`) and the decoder -/

/-- The logical events of `DecodedEvent.hpp`, each with its `uint64_t`
macro time: a `DecodedEvent` passed to `HandleTimestamp`, a `ValidPhotonEvent`,
an `InvalidPhotonEvent` (both with `uint16_t` `microtime` and `route`), a
`MarkerEvent` (with `uint16_t` `bits`) and a `DataLostEvent`. -/
inductive DecodedEvent where
  | Timestamp (macrotime : Nat)
  | ValidPhotonEvent (macrotime microtime route : Nat)
  | InvalidPhotonEvent (macrotime microtime route : Nat)
  | MarkerEvent (macrotime bits : Nat)
  | DataLostEvent (macrotime : Nat)
  deriving DecidableEq, Repr

/-- The field `macrotime` of the base struct `DecodedEvent`. -/
def DecodedEvent.macrotime : DecodedEvent → Nat
  | .Timestamp m => m
  | .ValidPhotonEvent m _ _ => m
  | .InvalidPhotonEvent m _ _ => m
  | .MarkerEvent m _ => m
  | .DataLostEvent m => m

/-- Calls on a `DecodedEventProcessor` (lines 88-119): one of the five event
handlers with its event, or `HandleError`. -/
inductive DecodedCall where
  | event (e : DecodedEvent)
  | HandleError (message : String)
  deriving DecidableEq, Repr

/-- Modelled from the spec: a bit field of a `RawEventWord`, the fixed-width
binary record of the device, which `FLIMEvents/BHDeviceEvent.hpp` (not among
the sources) declares: `bits` bits from bit `shift` on. -/
structure BitField where
  shift : Nat
  bits : Nat
  deriving DecidableEq, Repr

/-- Modelled from the spec: reading a field of a raw word. -/
def BitField.get (f : BitField) (word : Nat) : Nat := (word >>> f.shift) % 2 ^ f.bits

/-- Modelled from the spec: a raw word with the value in the field and
zeros elsewhere. -/
def BitField.put (f : BitField) (value : Nat) : Nat := (value % 2 ^ f.bits) <<< f.shift

/-- Modelled from the spec: the vendor-specific encoding of a `RawEventWord`
(section 6), not among the sources: flag bits tell photon records from marker
and overflow records; photon records carry the native macro time, the
microtime and the route; marker records carry the native macro time and a
marker-bit mask. The positions are left open. -/
structure RawEventLayout where
  macrotime : BitField
  microtime : BitField
  route : BitField
  markerBits : BitField
  overflowFlag : Nat
  markerFlag : Nat
  dataLostFlag : Nat
  invalidFlag : Nat
  deriving DecidableEq, Repr

/-- Modelled from the spec: a `RawEventWord` as the decoder reads it, with
the native macro time of the device counter. -/
inductive RawRecord where
  | overflow
  | validPhoton (macrotime microtime route : Nat)
  | invalidPhoton (macrotime microtime route : Nat)
  | marker (macrotime bits : Nat)
  | dataLost (macrotime : Nat)
  deriving DecidableEq, Repr

/-- Modelled from the spec: whether a record tells an overflow of the
device's native macro-time counter. -/
def RawRecord.isOverflow : RawRecord → Bool
  | .overflow => true
  | _ => false

/-- Modelled from the spec: the native macro time of a record (an overflow
record has none). -/
def RawRecord.macrotime : RawRecord → Nat
  | .overflow => 0
  | .validPhoton m _ _ => m
  | .invalidPhoton m _ _ => m
  | .marker m _ => m
  | .dataLost m => m

/-- Modelled from the spec: the one `DecodedEvent` of a record, with the
corrected macro time: photon records carry microtime and route directly,
marker records their marker-bit mask, an overflow gives a `Timestamp`. The
fields of the events are `uint16_t`. -/
def RawRecord.toEvent (macrotime : Nat) : RawRecord → DecodedEvent
  | .overflow => .Timestamp macrotime
  | .validPhoton _ microtime route =>
    .ValidPhotonEvent macrotime (microtime % 2 ^ 16) (route % 2 ^ 16)
  | .invalidPhoton _ microtime route =>
    .InvalidPhotonEvent macrotime (microtime % 2 ^ 16) (route % 2 ^ 16)
  | .marker _ bits => .MarkerEvent macrotime (bits % 2 ^ 16)
  | .dataLost _ => .DataLostEvent macrotime

/-- Modelled from the spec: reading a raw word under a layout. -/
def RawEventLayout.parse (layout : RawEventLayout) (word : Nat) : RawRecord :=
  if word.testBit layout.overflowFlag then .overflow
  else if word.testBit layout.markerFlag then
    .marker (layout.macrotime.get word) (layout.markerBits.get word)
  else if word.testBit layout.dataLostFlag then .dataLost (layout.macrotime.get word)
  else if word.testBit layout.invalidFlag then
    .invalidPhoton (layout.macrotime.get word) (layout.microtime.get word)
      (layout.route.get word)
  else
    .validPhoton (layout.macrotime.get word) (layout.microtime.get word)
      (layout.route.get word)

/-- Modelled from the spec: the raw word of a synthetic valid photon
(section 8, round trip): the three values in their fields, no flag set. -/
def RawEventLayout.encodePhoton (layout : RawEventLayout) (macrotime microtime route : Nat) :
    Nat :=
  layout.macrotime.put macrotime ||| layout.microtime.put microtime ||| layout.route.put route

/-- Modelled from the spec: the period of the device's native macro-time
counter, as wide as the macro-time field. -/
def RawEventLayout.period (layout : RawEventLayout) : Nat := 2 ^ layout.macrotime.bits

/-- Modelled from the spec: the state of the Event Decoder (section 4.2),
class `BHSPCEventDecoder` of `FLIMEvents/BHDeviceEvent.hpp`, not among the
sources: the overflow-corrected macro-time base. -/
structure DecoderState where
  macrotimeBase : Nat
  deriving DecidableEq, Repr

/-- Modelled from the spec: the decoder at the start of an acquisition. -/
def DecoderState.init : DecoderState := ⟨0⟩

/-- Modelled from the spec: the Event Decoder on one record (section 4.2).
An overflow record advances the macro-time base by the period of the native
counter; the macro time of the event is the base plus the native macro time,
a `uint64_t`; the decoder emits exactly one event for the record. Under a
layout every raw word reads as one of the five records, so that no word is
malformed and the decoder reports no error; the spec names no other check. -/
def BHSPCEventDecoder.HandleDeviceEvent (period : Nat) (state : DecoderState)
    (record : RawRecord) : DecoderState × List DecodedCall :=
  let macrotimeBase :=
    if record.isOverflow then (state.macrotimeBase + period) % 2 ^ 64
    else state.macrotimeBase
  let macrotime := (macrotimeBase + record.macrotime) % 2 ^ 64
  (⟨macrotimeBase⟩, [DecodedCall.event (record.toEvent macrotime)])

/-- Modelled from the spec: the Event Decoder on the records of a buffer,
in order: the state afterwards and the calls made downstream. -/
def BHSPCEventDecoder.HandleRecords (period : Nat) :
    DecoderState → List RawRecord → DecoderState × List DecodedCall
  | state, [] => (state, [])
  | state, record :: rest =>
    let first := BHSPCEventDecoder.HandleDeviceEvent period state record
    let others := BHSPCEventDecoder.HandleRecords period first.1 rest
    (others.1, first.2 ++ others.2)

/-- Modelled from the spec: the method `HandleDeviceEvents` of the decoder,
on the raw words of a buffer. -/
def BHSPCEventDecoder.HandleDeviceEvents (layout : RawEventLayout) (state : DecoderState)
    (words : List Nat) : DecoderState × List DecodedCall :=
  BHSPCEventDecoder.HandleRecords layout.period state (words.map layout.parse)

/-! ## The aggregate finish as a task -/

/-- What happens to the task of lines 214-217 and the two futures it waits for. -/
inductive FinishStep where
  /-- The consumer pump returns: `dataFinished` becomes ready with a value. -/
  | pumpCompletes
  /-- The consumer pump is left by an exception (one that a handler throws,
  which `PumpDeviceEvents` does not catch): `dataFinished` becomes ready and
  holds the exception. -/
  | pumpThrows
  /-- The producer completes: `acqFinished` becomes ready with a value. -/
  | producerCompletes
  /-- The producer is left by an exception: `acqFinished` becomes ready and
  holds the exception. -/
  | producerThrows
  /-- The thread of the task runs: a `get()` it is blocked in returns, or
  rethrows, if its future is ready. -/
  | taskRuns
  deriving DecidableEq, Repr

/-- One step of the task `dataFinished.get(); acqFinished.get();` and of the
futures it waits for. A ready future stays ready and keeps what it holds. A
`get()` on a future that holds an exception rethrows it: the body of the task
is left there, and the future of the task is ready. -/
def FinishTask.step (t : FinishTask) : FinishStep → FinishTask
  | .pumpCompletes => { t with dataFinished := true }
  | .pumpThrows =>
    if t.dataFinished then t else { t with dataFinished := true, dataException := true }
  | .producerCompletes => { t with acqFinished := true }
  | .producerThrows =>
    if t.acqFinished then t else { t with acqFinished := true, acqException := true }
  | .taskRuns =>
    match t.position with
    | .waitData =>
      if t.dataFinished then
        if t.dataException then { t with position := JoinPosition.returned }
        else { t with position := JoinPosition.waitAcq }
      else t
    | .waitAcq => if t.acqFinished then { t with position := JoinPosition.returned } else t
    | .returned => t

/-- A sequence of steps, in order. -/
def FinishTask.steps (t : FinishTask) : List FinishStep → FinishTask
  | [] => t
  | s :: rest => FinishTask.steps (t.step s) rest

/-! ## Sample inputs -/

/-- A collaborator set for which every external call succeeds. -/
def sampleCollaborators : Collaborators where
  SetMarkerPolarities := fun _ _ _ => 0
  SetUpAcquisition := fun _ => ⟨0, [0, 0, 0, 0], 0, 250⟩
  IsStandardFIFO := fun _ => true
  PixelsToMacroTime := fun _ _ _ => 100
  SPCFileWriter_IsValid := fun _ _ => true
  SetUpProcessing := fun _ _ _ _ _ _ => .ok ()

/-- A four-marker device with the line marker on bit 1, rising edge, a line
delay of 25 pixels, and no acquisition state. -/
def sampleDevice : PrivateData 4 where
  moduleNr := 0
  markerActiveEdges := fun _ => MarkerPolarity.MarkerPolarityRisingEdge
  pixelMarkerBit := 4
  lineMarkerBit := 1
  frameMarkerBit := 4
  pixelMappingMode := PixelMappingMode.PixelMappingModeLineStartMarkers
  lineDelayPx := 25
  spcFilename := "out.spc"
  acqState := none

/-- A request for two frames of 4 x 4 pixels. -/
def sampleAcquisition : OScDev_Acquisition := ⟨2, 1000000, 0, 0, 4, 4⟩

/-- The sample device with the pixel marker on the line marker's bit. -/
def duplicateDevice : PrivateData 4 := { sampleDevice with pixelMarkerBit := 1 }

/-- The sample device with no line marker assigned. -/
def noLineDevice : PrivateData 4 := { sampleDevice with lineMarkerBit := 4 }

/-- The sample device with a pixel-mapping mode other than the two implemented ones. -/
def otherModeDevice : PrivateData 4 :=
  { sampleDevice with pixelMappingMode := PixelMappingMode.other 2 }

/-- The sample device while an acquisition is in progress: the finish task
is still waiting for the consumer pump. -/
def runningDevice : PrivateData 4 :=
  { sampleDevice with
    acqState := some ⟨shared_future.task ⟨false, false, JoinPosition.waitData, false, false⟩, ⟨false, true⟩⟩ }

/-- What `StartAcquisition` returns for `noLineDevice`: code 1 from
`CheckMarkers`, after the acquisition state was reset and the marker
polarities were sent to the device. -/
def noLineResult : StartResult 4 :=
  ⟨1, { noLineDevice with acqState := some AcqState.new },
    [Event.new_AcqState, Event.SetMarkerPolarities 0 15 15]⟩

/-- The device a failed `StartAcquisition` on `noLineDevice` leaves behind,
once the user has assigned the line marker to bit 1: a valid configuration. -/
def retryDevice : PrivateData 4 := { sampleDevice with acqState := some AcqState.new }

/-- The sample device with line markers at line ends and no line delay. -/
def lineEndDevice : PrivateData 4 :=
  { sampleDevice with
    pixelMappingMode := PixelMappingMode.PixelMappingModeLineEndMarkers, lineDelayPx := 0 }

/-- Collaborators for which the measurement file cannot be opened. -/
def invalidFileCollaborators : Collaborators :=
  { sampleCollaborators with SPCFileWriter_IsValid := fun _ _ => false }

/-- Collaborators for which histogram memory cannot be allocated. -/
def badAllocCollaborators : Collaborators :=
  { sampleCollaborators with SetUpProcessing := fun _ _ _ _ _ _ => .error Fault.bad_alloc }

/-- What `StartAcquisition` returns for the sample device and collaborators. -/
def sampleResult : StartResult 4 :=
  ⟨0,
    { sampleDevice with
      acqState := some ⟨shared_future.task ⟨false, false, JoinPosition.waitData, false, false⟩, ⟨false, true⟩⟩ },
    [Event.new_AcqState, Event.SetMarkerPolarities 0 15 15, Event.SetUpAcquisition 0,
      Event.SPCFileWriter "out.spc" [0, 0, 0, 0], Event.SetUpProcessing 4 4 2 100 100 1,
      Event.EventBufferPool 49152, Event.StartAcquisitionStandardFIFO 0, Event.install_finish]⟩

/-- The finish task after the consumer pump was left by an exception and the
task ran: `dataFinished.get()` has rethrown, the body is left, and
`acqFinished` is not ready. -/
def abortedTask : FinishTask := ⟨true, false, JoinPosition.returned, true, false⟩

/-- The device after the sample start, with the finish task in that state. -/
def abortedDevice : PrivateData 4 :=
  { sampleDevice with acqState := some ⟨shared_future.task abortedTask, ⟨false, true⟩⟩ }

/-- A 2 x 1 intensity frame (0 histogram bits) with counts 3 and 5. -/
def sampleFrame : Histogram := ⟨0, 12, 2, 1, [3, 5]⟩

/-- Two buffers of raw words. -/
def sampleBuffers : List EventBuffer := [⟨[7, 8], 2⟩, ⟨[9], 1⟩]

/-- What `StartAcquisition` returns for `lineEndDevice`, the line taking 100
macrotime units: the line delay handed to the pipeline is -100. -/
def lineEndResult : StartResult 4 :=
  ⟨0,
    { lineEndDevice with
      acqState := some ⟨shared_future.task ⟨false, false, JoinPosition.waitData, false, false⟩, ⟨false, true⟩⟩ },
    [Event.new_AcqState, Event.SetMarkerPolarities 0 15 15, Event.SetUpAcquisition 0,
      Event.SPCFileWriter "out.spc" [0, 0, 0, 0], Event.SetUpProcessing 4 4 2 (-100) 100 1,
      Event.EventBufferPool 49152, Event.StartAcquisitionStandardFIFO 0, Event.install_finish]⟩

/-- What `StartAcquisition` returns when the measurement file cannot be
opened: code 1, after the vendor set-up and the attempt to open the file. -/
def invalidFileResult : StartResult 4 :=
  ⟨1, { sampleDevice with acqState := some AcqState.new },
    [Event.new_AcqState, Event.SetMarkerPolarities 0 15 15, Event.SetUpAcquisition 0,
      Event.SPCFileWriter "out.spc" [0, 0, 0, 0]]⟩

/-- Parameters as a module reports them: mode 3, scan polarity 5. -/
def sampleSPCdata : SPCdata := ⟨3, 0x0123, 5, 1, 1, 10, 1, 1, 1⟩

/-- A vendor library whose calls all succeed (`ROUT_OUT` 2, `FIFO_32M` 3). -/
def sampleSPCM : SPCM where
  ROUT_OUT := 2
  FIFO_32M := 3
  SPC_get_parameters_first := (0, sampleSPCdata)
  SPC_get_parameters_second := (0, sampleSPCdata)
  SPC_enable_sequencer := 0
  SPC_set_parameters_second := fun _ => 0
  SPC_get_fifo_init_vars := (0, 4, 1, 0)
  SPC_init_buf_stream := 1

/-- The same library with the `SPC_get_parameters` call of line 1360 failing. -/
def failingSPCM : SPCM := { sampleSPCM with SPC_get_parameters_second := (-1, sampleSPCdata) }

/-- Acquisition data of a device that is not running; a stop was requested
in its previous acquisition. -/
def idleAcquisition : AcqPrivateData :=
  ⟨false, true, 0, 0, none, 0, 0, 0, 0, none, false, "", false⟩

/-- Acquisition data of a running device with a stop requested. -/
def runningAcquisition : AcqPrivateData := { idleAcquisition with isRunning := true }

/-- The idle acquisition data after the critical section of `BH_ArmDetector`. -/
def enteredAcquisition : AcqPrivateData :=
  { idleAcquisition with stopRequested := false, isRunning := true }

/-- A layout of 32-bit words: native macro time in bits 0-11, route (or
marker bits) in bits 12-15, microtime in bits 16-27, flags in bits 28-31. -/
def sampleLayout : RawEventLayout :=
  ⟨⟨0, 12⟩, ⟨16, 12⟩, ⟨12, 4⟩, ⟨12, 4⟩, 30, 28, 29, 31⟩

/-- Calling `RequestAcquisitionStop` `n` times in sequence on one acquisition
state (whoever the callers are: `StopAcquisition`, `ShutdownAcquisitionState`
or the stop callback handed to the pipeline all go through this function). -/
def requestStopTimes : Nat → AcqState → Except Fault AcqState
  | 0, acqState => .ok acqState
  | n + 1, acqState =>
    match RequestAcquisitionStop acqState with
    | .ok stopped => requestStopTimes n stopped
    | .error f => .error f

/-- A configuration is unambiguous with a line marker: the line marker bit is
assigned (below `NUM_MARKER_BITS`) with a polarity other than disabled, and
those of the three role bits that are assigned are pairwise distinct. -/
def UnambiguousWithLineMarker {N : Nat} (data : PrivateData N) : Prop :=
  (∃ h : data.lineMarkerBit < N,
      data.markerActiveEdges ⟨data.lineMarkerBit, h⟩ ≠ MarkerPolarity.MarkerPolarityDisabled) ∧
    (data.pixelMarkerBit < N → data.pixelMarkerBit ≠ data.lineMarkerBit) ∧
    (data.frameMarkerBit < N → data.frameMarkerBit ≠ data.lineMarkerBit) ∧
    (data.pixelMarkerBit < N → data.frameMarkerBit < N →
      data.pixelMarkerBit ≠ data.frameMarkerBit)

instance {N : Nat} (data : PrivateData N) : Decidable (UnambiguousWithLineMarker data) := by
  unfold UnambiguousWithLineMarker
  infer_instance

/-- The first terminal call (`HandleError` or `HandleFinish`) of a sequence, if any. -/
def firstTerminal (calls : List HistogramCall) : Option HistogramCall :=
  calls.find? HistogramCall.isTerminal

/-- The report the completion tracker is to receive from the intensity sink,
given the first terminal call delivered to the sink. -/
def expectedReport : Option HistogramCall → List SinkCall
  | some (.HandleError message) =>
    [SinkCall.AcquisitionCompletion_HandleError
      ("Stopping intensity images due to error: " ++ message) "IntensityImage"]
  | some (.HandleFinish _ _) => [SinkCall.AcquisitionCompletion_HandleFinish "IntensityImage"]
  | _ => []

/-- The call the writer is to receive from a histogram sink on `channel`,
given the first terminal call delivered to the sink. -/
def expectedWriterCall (channel : Nat) : Option HistogramCall → List SinkCall
  | some (.HandleError message) => [SinkCall.SDTWriter_HandleError message]
  | some (.HandleFinish histogram _) => [SinkCall.SDTWriter_SetHistogram channel histogram]
  | _ => []

/-- The frame callback a `HandleFrame` delivery is to cause; other calls cause none. -/
def expectedFrameCallback : HistogramCall → Option SinkCall
  | .HandleFrame histogram =>
    some (SinkCall.OScDev_Acquisition_CallFrameCallback 0 histogram.counts)
  | _ => none

/-- Whether a call is a `HandleFrame` delivery. -/
def HistogramCall.isHandleFrame : HistogramCall → Bool
  | .HandleFrame _ => true
  | _ => false

/-- The calls the pump is to make for the buffers `b1, ..., bn` in receive
order: each buffer goes to every processor, in array order, before the next
buffer goes to any. -/
def deliveries (N : Nat) : List EventBuffer → List ProcessorCall
  | [] => []
  | buffer :: rest =>
    forEachProcessor N (fun p => ProcessorCall.HandleDeviceEvents p buffer.data buffer.size)
      ++ deliveries N rest

/-- The calls made on processor `p`, in order. -/
def callsOn (p : Nat) (calls : List ProcessorCall) : List ProcessorCall :=
  calls.filter (fun c => c.processor == p)

/-- A frame histogram has the shape of a branch built with the given
`histoBits`, `width` and `height`. -/
def Histogram.hasShape (h : Histogram) (histoBits width height : Nat) : Prop :=
  h.histoBits = histoBits ∧ h.width = width ∧ h.height = height ∧
    h.counts.length = width * height * 2 ^ histoBits

instance (h : Histogram) (histoBits width height : Nat) :
    Decidable (h.hasShape histoBits width height) := by
  unfold Histogram.hasShape
  infer_instance

/-- The sum `S` of the first `n` 16-bit words of a header. -/
def wordSum (hdr : Nat → Nat) (n : Nat) : Nat := ((List.range n).map hdr).sum

/-- The header with the word `c` stored at index `k`. -/
def storeWord (hdr : Nat → Nat) (k c : Nat) : Nat → Nat :=
  fun i => if i = k then c else hdr i

/-- The macro times of the events among the calls, in order. -/
def emittedMacrotimes : List DecodedCall → List Nat
  | [] => []
  | .event e :: rest => e.macrotime :: emittedMacrotimes rest
  | .HandleError _ :: rest => emittedMacrotimes rest

/-- Records as the device produces them: every native macro time is below
the period of the counter, and between two overflow records the native macro
times do not decrease. `previous` is the native macro time of the last record
since the last overflow (0 right after an overflow). -/
def deviceOrdered (period : Nat) : Nat → List RawRecord → Prop
  | _, [] => True
  | previous, record :: rest =>
    if record.isOverflow then deviceOrdered period 0 rest
    else
      previous ≤ record.macrotime ∧ record.macrotime < period ∧
        deviceOrdered period record.macrotime rest

/-- The fields of a photon record and the four flags do not overlap: the
three fields are disjoint and no flag lies in a field. -/
def RawEventLayout.photonFieldsDisjoint (layout : RawEventLayout) : Prop :=
  (layout.macrotime.shift + layout.macrotime.bits ≤ layout.route.shift ∨
    layout.route.shift + layout.route.bits ≤ layout.macrotime.shift) ∧
  (layout.macrotime.shift + layout.macrotime.bits ≤ layout.microtime.shift ∨
    layout.microtime.shift + layout.microtime.bits ≤ layout.macrotime.shift) ∧
  (layout.route.shift + layout.route.bits ≤ layout.microtime.shift ∨
    layout.microtime.shift + layout.microtime.bits ≤ layout.route.shift) ∧
  ∀ flag ∈ [layout.overflowFlag, layout.markerFlag, layout.dataLostFlag, layout.invalidFlag],
    ∀ field ∈ [layout.macrotime, layout.microtime, layout.route],
      flag < field.shift ∨ field.shift + field.bits ≤ flag

instance deviceOrdered.decidable (period : Nat) :
    ∀ (previous : Nat) (records : List RawRecord),
      Decidable (deviceOrdered period previous records)
  | _, [] => isTrue trivial
  | previous, record :: rest =>
    if h : record.isOverflow = true then
      haveI := deviceOrdered.decidable period 0 rest
      decidable_of_iff (deviceOrdered period 0 rest) (by simp [deviceOrdered, h])
    else
      haveI := deviceOrdered.decidable period record.macrotime rest
      decidable_of_iff
        (previous ≤ record.macrotime ∧ record.macrotime < period ∧
          deviceOrdered period record.macrotime rest)
        (by simp [deviceOrdered, h])

instance (layout : RawEventLayout) : Decidable layout.photonFieldsDisjoint := by
  unfold RawEventLayout.photonFieldsDisjoint
  infer_instance

/-! ## Lemmas -/

theorem CheckMarkers_accept {N : Nat} (data : PrivateData N)
    (h : UnambiguousWithLineMarker data) : CheckMarkers data = .ok 0 := by
  obtain ⟨⟨hl, he⟩, hpl, hfl, hpf⟩ := h
  unfold CheckMarkers
  by_cases hp : data.pixelMarkerBit < N <;> by_cases hf : data.frameMarkerBit < N <;>
    simp [bitset.set, bitset.test, bitset.empty, PrivateData.edge, hl, hp, hf, he, pure,
      Except.pure, bind, Except.bind]
  · have h1 := hpl hp
    have h2 := hfl hf
    have h3 := hpf hp hf
    simp [Ne.symm h1, h2, Ne.symm h3, Nat.not_le.mpr hl]
  · have h1 := hpl hp
    simp [Ne.symm h1, Nat.not_le.mpr hl]
  · have h2 := hfl hf
    simp [h2, Nat.not_le.mpr hl]

theorem CheckMarkers_reject {N : Nat} (data : PrivateData N)
    (h : ¬ UnambiguousWithLineMarker data) : CheckMarkers data = .ok 1 := by
  unfold UnambiguousWithLineMarker at h
  unfold CheckMarkers
  by_cases hl : data.lineMarkerBit < N <;> by_cases hp : data.pixelMarkerBit < N <;>
    by_cases hf : data.frameMarkerBit < N <;>
    simp [bitset.set, bitset.test, bitset.empty, PrivateData.edge, hl, hp, hf, pure,
      Except.pure, bind, Except.bind] at h ⊢
  · intro h1 h2 h3
    by_contra h4
    exact h3 (h h4 (fun e => h1 e.symm) h2).symm
  · intro h1
    by_contra h4
    exact h1 (h h4).symm
  · intro h1
    by_contra h4
    exact h1 (h h4)
  · exact h

theorem ConfigureMarkers_loop_ok {N : Nat} (data : PrivateData N) :
    ∀ k, k ≤ N → ∃ r, ConfigureMarkers.loop data k = .ok r := by
  intro k
  induction k with
  | zero => intro _; exact ⟨(0, 0), rfl⟩
  | succ i ih =>
    intro hk
    obtain ⟨r, hr⟩ := ih (Nat.le_of_succ_le hk)
    have hi : i < N := hk
    simp [ConfigureMarkers.loop, hr, PrivateData.edge, hi, bind, Except.bind, pure, Except.pure]

theorem ConfigureMarkers_ok {N : Nat} (co : Collaborators) (data : PrivateData N) :
    ∃ enabled risingEdgeActive, ConfigureMarkers co data =
      .ok (co.SetMarkerPolarities data.moduleNr enabled risingEdgeActive,
        [Event.SetMarkerPolarities data.moduleNr enabled risingEdgeActive]) := by
  obtain ⟨r, hr⟩ := ConfigureMarkers_loop_ok data N (Nat.le_refl N)
  exact ⟨r.1, r.2, by simp [ConfigureMarkers, hr, bind, Except.bind, pure, Except.pure]⟩

theorem ConfigureMarkers_trace {N : Nat} (co : Collaborators) (data : PrivateData N)
    (v : Int × List Event) (h : ConfigureMarkers co data = .ok v) :
    ∀ e ∈ v.2, e.startsPipeline = false := by
  obtain ⟨en, ri, hc⟩ := ConfigureMarkers_ok co data
  rw [hc] at h
  cases h
  intro e he
  simp at he
  subst he
  rfl

theorem ResetAcquisitionState_cases {N : Nat} (device : PrivateData N)
    (v : Int × PrivateData N × List Event) (h : ResetAcquisitionState device = .ok v) :
    (v = (1, device, []) ∧
        ∃ a t, device.acqState = some a ∧ a.finish = shared_future.task t ∧
          t.position ≠ JoinPosition.returned) ∨
      (v.1 = 0 ∧ v.2.1 = { device with acqState := some AcqState.new } ∧
        (∀ e ∈ v.2.2, e.startsPipeline = false) ∧
        ∀ a, device.acqState = some a →
          ∃ t, a.finish = shared_future.task t ∧ t.position = JoinPosition.returned) := by
  unfold ResetAcquisitionState at h
  cases ha : device.acqState with
  | none =>
    rw [ha] at h
    cases h
    refine Or.inr ⟨rfl, rfl, ?_, ?_⟩
    · intro e he
      simp at he
      subst he
      rfl
    · intro a h0
      cases h0
  | some a =>
    rw [ha] at h
    cases hf : a.finish with
    | no_state =>
      simp [hf, shared_future.wait_for_0s] at h
    | task t =>
      by_cases hp : t.position = JoinPosition.returned
      · simp [hf, shared_future.wait_for_0s, hp] at h
        subst h
        refine Or.inr ⟨rfl, rfl, ?_, ?_⟩
        · intro e he
          simp at he
          rcases he with he | he <;> subst he <;> rfl
        · intro a0 h0
          cases h0
          exact ⟨t, hf, hp⟩
      · simp [hf, shared_future.wait_for_0s, hp] at h
        subst h
        exact Or.inl ⟨rfl, a, t, rfl, hf, hp⟩

theorem launch_code {N : Nat} (co : Collaborators) (data : PrivateData N)
    (acq : OScDev_Acquisition) (a : Option AcqState) (t : List Event) (lineDelay : Int)
    (lineTime : Nat) (r : StartResult N)
    (h : StartAcquisition.launch co data acq a t lineDelay lineTime = .ok r) : r.code = 0 := by
  unfold StartAcquisition.launch at h
  simp only [bind, Except.bind, pure, Except.pure] at h
  repeat' (split at h)
  all_goals (first | (cases h; done) | skip)
  all_goals (simp only [Except.ok.injEq] at h; subst h; rfl)

theorem StartAcquisition_error_inv {N : Nat} (co : Collaborators) (device : PrivateData N)
    (acq : OScDev_Acquisition) (r : StartResult N)
    (h : StartAcquisition co device acq = .ok r) (hc : r.code ≠ 0) :
    (∀ e ∈ r.trace, e.startsPipeline = false) ∧
      (r.data = device ∨ r.data = { device with acqState := some AcqState.new }) := by
  unfold StartAcquisition at h
  simp only [bind, Except.bind, pure, Except.pure] at h
  split at h
  · cases h
  · rename_i v hR
    have hReset := ResetAcquisitionState_cases device v hR
    split at h
    · rename_i hv
      rcases hReset with ⟨hv1, _⟩ | ⟨hv0, _⟩
      · subst hv1
        simp only [Except.ok.injEq] at h
        subst h
        exact ⟨by simp, Or.inl rfl⟩
      · exact absurd hv0 hv
    · rcases hReset with ⟨hv1, _⟩ | ⟨_, hd, ht, _⟩
      · subst hv1
        simp at *
      · split at h
        · cases h
        · rename_i w hC
          have hCt := ConfigureMarkers_trace co _ w hC
          have key : ∀ e ∈ v.2.2 ++ w.2, e.startsPipeline = false := by
            intro e he
            rcases List.mem_append.mp he with he | he
            · exact ht e he
            · exact hCt e he
          have key2 : ∀ e ∈ v.2.2 ++ w.2 ++ [Event.SetUpAcquisition v.2.1.moduleNr],
              e.startsPipeline = false := by
            intro e he
            rcases List.mem_append.mp he with he | he
            · exact key e he
            · simp at he
              subst he
              rfl
          have key3 : ∀ hdr, ∀ e ∈ v.2.2 ++ w.2 ++ [Event.SetUpAcquisition v.2.1.moduleNr] ++
              [Event.SPCFileWriter v.2.1.spcFilename hdr], e.startsPipeline = false := by
            intro hdr e he
            rcases List.mem_append.mp he with he | he
            · exact key2 e he
            · simp at he
              subst he
              rfl
          repeat' (split at h)
          all_goals (first | (cases h; done) | skip)
          all_goals
            (first
              | (exact absurd (launch_code _ _ _ _ _ _ _ _ h) hc)
              | (simp only [Except.ok.injEq] at h
                 subst h
                 first
                   | exact ⟨key, Or.inr hd⟩
                   | exact ⟨key2, Or.inr hd⟩
                   | exact ⟨key3 _, Or.inr hd⟩))

theorem CheckMarkers_total {N : Nat} (data : PrivateData N) :
    CheckMarkers data = .ok 0 ∨ CheckMarkers data = .ok 1 := by
  by_cases h : UnambiguousWithLineMarker data
  · exact Or.inl (CheckMarkers_accept data h)
  · exact Or.inr (CheckMarkers_reject data h)

theorem CheckMarkers_zero_iff {N : Nat} (data : PrivateData N) :
    CheckMarkers data = .ok 0 ↔ UnambiguousWithLineMarker data := by
  constructor
  · intro h
    by_contra hn
    rw [CheckMarkers_reject data hn] at h
    cases h
  · exact CheckMarkers_accept data

theorem StartAcquisition_success_inv {N : Nat} (co : Collaborators) (device : PrivateData N)
    (acq : OScDev_Acquisition) (r : StartResult N)
    (h : StartAcquisition co device acq = .ok r) (h0 : r.code = 0) :
    (device.pixelMappingMode = PixelMappingMode.PixelMappingModeLineStartMarkers ∨
        device.pixelMappingMode = PixelMappingMode.PixelMappingModeLineEndMarkers) ∧
      (co.SetUpAcquisition device.moduleNr).err = 0 ∧
      co.IsStandardFIFO (co.SetUpAcquisition device.moduleNr).fifoType = true ∧
      co.SPCFileWriter_IsValid device.spcFilename
        (co.SetUpAcquisition device.moduleNr).fileHeader = true ∧
      UnambiguousWithLineMarker device := by
  unfold StartAcquisition at h
  simp only [bind, Except.bind, pure, Except.pure] at h
  split at h
  · cases h
  · rename_i v hR
    have hReset := ResetAcquisitionState_cases device v hR
    split at h
    · rename_i hv
      simp only [Except.ok.injEq] at h
      subst h
      exact absurd h0 hv
    · rcases hReset with ⟨hv1, _⟩ | ⟨_, hd, _, _⟩
      · subst hv1
        simp at *
      · split at h
        · cases h
        · split at h
          · simp only [Except.ok.injEq] at h
            subst h
            rename_i hw
            exact absurd h0 hw
          · split at h
            · cases h
            · rename_i c hM
              split at h
              · simp only [Except.ok.injEq] at h
                subst h
                rename_i hc
                exact absurd h0 hc
              · rename_i hc
                have hc0 : c = 0 := by
                  by_contra hne
                  exact hc hne
                subst hc0
                have hU : UnambiguousWithLineMarker device := by
                  have := (CheckMarkers_zero_iff v.2.1).mp hM
                  rw [hd] at this
                  exact this
                rw [hd] at h
                simp only at h
                repeat' (split at h)
                all_goals
                  (first
                    | (simp only [Except.ok.injEq] at h
                       subst h
                       first
                         | (simp at h0; done)
                         | (simp only at h0; contradiction))
                    | skip)
                all_goals simp_all

theorem ResetAcquisitionState_ok {N : Nat} (device : PrivateData N)
    (hvalid : ∀ a, device.acqState = some a → a.finish ≠ shared_future.no_state) :
    ∃ v, ResetAcquisitionState device = .ok v := by
  unfold ResetAcquisitionState
  cases ha : device.acqState with
  | none => exact ⟨_, rfl⟩
  | some a =>
    cases hf : a.finish with
    | no_state => exact absurd hf (hvalid a ha)
    | task t =>
      by_cases hp : t.position = JoinPosition.returned <;>
        simp [shared_future.wait_for_0s, hp, hf]

theorem launch_new {N : Nat} (co : Collaborators) (data : PrivateData N)
    (acq : OScDev_Acquisition) (t : List Event) (lineDelay : Int) (lineTime : Nat) :
    (∃ r, StartAcquisition.launch co data acq (some AcqState.new) t lineDelay lineTime =
        .ok r) ∨
      ∃ f, co.SetUpProcessing acq.width acq.height acq.numberOfFrames lineDelay lineTime
          data.lineMarkerBit = .error f ∧
        StartAcquisition.launch co data acq (some AcqState.new) t lineDelay lineTime =
          .error f := by
  unfold StartAcquisition.launch
  cases hS : co.SetUpProcessing acq.width acq.height acq.numberOfFrames lineDelay lineTime
      data.lineMarkerBit with
  | error f => exact Or.inr ⟨f, rfl, rfl⟩
  | ok u => exact Or.inl ⟨_, rfl⟩

theorem StartAcquisition_returns_or_launch_faults {N : Nat} (co : Collaborators)
    (device : PrivateData N) (acq : OScDev_Acquisition)
    (hvalid : ∀ a, device.acqState = some a → a.finish ≠ shared_future.no_state) :
    (∃ r, StartAcquisition co device acq = .ok r) ∨
      ∃ f lineDelay lineTime,
        co.SetUpProcessing acq.width acq.height acq.numberOfFrames lineDelay lineTime
          device.lineMarkerBit = .error f ∧
        StartAcquisition co device acq = .error f ∧
        (device.pixelMappingMode = PixelMappingMode.PixelMappingModeLineStartMarkers ∨
          device.pixelMappingMode = PixelMappingMode.PixelMappingModeLineEndMarkers) ∧
        co.IsStandardFIFO (co.SetUpAcquisition device.moduleNr).fifoType = true := by
  obtain ⟨v, hR⟩ := ResetAcquisitionState_ok device hvalid
  have hReset := ResetAcquisitionState_cases device v hR
  unfold StartAcquisition
  simp only [hR, bind, Except.bind, pure, Except.pure]
  rcases hReset with ⟨hv1, _⟩ | ⟨hv0, hd, _, _⟩
  · subst hv1
    exact Or.inl ⟨_, rfl⟩
  · obtain ⟨en, ri, hC⟩ := ConfigureMarkers_ok co v.2.1
    simp only [hv0, hd, hC, ne_eq, not_true_eq_false, if_false]
    rw [hd] at hC
    simp only [hC]
    split
    · exact Or.inl ⟨_, rfl⟩
    · rcases CheckMarkers_total { device with acqState := some AcqState.new } with hM | hM
      · simp only [hM, ne_eq, not_true_eq_false, if_false]
        cases hm : device.pixelMappingMode with
        | other k => exact Or.inl ⟨_, rfl⟩
        | PixelMappingModeLineStartMarkers =>
          simp only []
          repeat' split
          all_goals (first | (exact Or.inl ⟨_, rfl⟩) | skip)
          rename_i h1 h2 h3
          exact (launch_new co _ acq _ _ _).elim (fun h => Or.inl h)
            (fun ⟨f, hS, hL⟩ => Or.inr ⟨f, _, _, hS, hL, Or.inl trivial, not_not.mp h2⟩)
        | PixelMappingModeLineEndMarkers =>
          simp only []
          repeat' split
          all_goals (first | (exact Or.inl ⟨_, rfl⟩) | skip)
          rename_i h1 h2 h3
          exact (launch_new co _ acq _ _ _).elim (fun h => Or.inl h)
            (fun ⟨f, hS, hL⟩ => Or.inr ⟨f, _, _, hS, hL, Or.inr trivial, not_not.mp h2⟩)
      · simp only [hM]
        exact Or.inl ⟨_, rfl⟩

theorem RequestAcquisitionStop_ok (a : AcqState) :
    RequestAcquisitionStop a = .ok ⟨a.finish, ⟨true, a.requestStop.future_retrieved⟩⟩ := by
  obtain ⟨fin, ⟨sat, ret⟩⟩ := a
  cases sat <;> simp [RequestAcquisitionStop, promise.set_value]

theorem requestStopTimes_stopped (n : Nat) (a : AcqState) (h : a.requestStop.satisfied = true) :
    requestStopTimes n a = .ok a := by
  induction n with
  | zero => rfl
  | succ k ih =>
    obtain ⟨fin, ⟨sat, ret⟩⟩ := a
    simp only at h
    subst h
    simp only [requestStopTimes, RequestAcquisitionStop_ok]
    exact ih

theorem launch_inv {N : Nat} (co : Collaborators) (data : PrivateData N)
    (acq : OScDev_Acquisition) (t : List Event) (lineDelay : Int) (lineTime : Nat)
    (r : StartResult N)
    (h : StartAcquisition.launch co data acq (some AcqState.new) t lineDelay lineTime = .ok r) :
    r = ⟨0,
      { data with
        acqState :=
          some ⟨shared_future.task ⟨false, false, JoinPosition.waitData, false, false⟩, ⟨false, true⟩⟩ },
      t ++ [Event.SetUpProcessing acq.width acq.height acq.numberOfFrames lineDelay lineTime
          data.lineMarkerBit,
        Event.EventBufferPool (48 * 1024), Event.StartAcquisitionStandardFIFO data.moduleNr,
        Event.install_finish]⟩ := by
  unfold StartAcquisition.launch at h
  cases hS : co.SetUpProcessing acq.width acq.height acq.numberOfFrames lineDelay lineTime
      data.lineMarkerBit with
  | error f =>
    simp [hS, bind, Except.bind] at h
  | ok u =>
    simp [hS, bind, Except.bind, pure, Except.pure, AcqState.new, promise.new,
      promise.get_future] at h
    rw [← h]

theorem StartAcquisition_success_launch {N : Nat} (co : Collaborators) (device : PrivateData N)
    (acq : OScDev_Acquisition) (r : StartResult N)
    (h : StartAcquisition co device acq = .ok r) (h0 : r.code = 0) :
    ∃ (t0 : List Event) (enabled risingEdgeActive : Nat) (lineMarkersAtLineEnds : Bool),
      (∀ e ∈ t0, e.startsPipeline = false) ∧
      ((device.pixelMappingMode = PixelMappingMode.PixelMappingModeLineStartMarkers ∧
          lineMarkersAtLineEnds = false) ∨
        (device.pixelMappingMode = PixelMappingMode.PixelMappingModeLineEndMarkers ∧
          lineMarkersAtLineEnds = true)) ∧
      StartAcquisition.launch co { device with acqState := some AcqState.new } acq
        (some AcqState.new)
        (t0 ++ [Event.SetMarkerPolarities device.moduleNr enabled risingEdgeActive] ++
          [Event.SetUpAcquisition device.moduleNr] ++
          [Event.SPCFileWriter device.spcFilename (co.SetUpAcquisition device.moduleNr).fileHeader])
        (StartAcquisition.lineDelay co device.lineDelayPx acq
          (co.SetUpAcquisition device.moduleNr).macroTimeUnitsTenthNs lineMarkersAtLineEnds)
        (StartAcquisition.lineTime co acq
          (co.SetUpAcquisition device.moduleNr).macroTimeUnitsTenthNs) = .ok r := by
  unfold StartAcquisition at h
  simp only [bind, Except.bind, pure, Except.pure] at h
  split at h
  · cases h
  · rename_i v hR
    have hReset := ResetAcquisitionState_cases device v hR
    split at h
    · rename_i hv
      simp only [Except.ok.injEq] at h
      subst h
      exact absurd h0 hv
    · rcases hReset with ⟨hv1, _⟩ | ⟨_, hd, ht, _⟩
      · subst hv1
        simp at *
      · obtain ⟨en, ri, hC⟩ := ConfigureMarkers_ok co v.2.1
        rw [hC] at h
        simp only at h
        split at h
        · simp only [Except.ok.injEq] at h
          subst h
          rename_i hw
          exact absurd h0 hw
        · split at h
          · cases h
          · rename_i c hM
            split at h
            · simp only [Except.ok.injEq] at h
              subst h
              rename_i hc
              exact absurd h0 hc
            · rw [hd] at h
              simp only at h
              refine ⟨v.2.2, en, ri, ?_⟩
              repeat' (split at h)
              all_goals
                (first
                  | (simp only [Except.ok.injEq] at h
                     subst h
                     first
                       | (simp at h0; done)
                       | (simp only at h0; contradiction))
                  | skip)
              all_goals
                (first
                  | exact ⟨false, ht, Or.inl ⟨by assumption, rfl⟩, h⟩
                  | exact ⟨true, ht, Or.inr ⟨by assumption, rfl⟩, h⟩)

theorem StartAcquisition_returns_or_SetUpProcessing_faults {N : Nat} (co : Collaborators)
    (device : PrivateData N) (acq : OScDev_Acquisition)
    (hvalid : ∀ a, device.acqState = some a → a.finish ≠ shared_future.no_state) :
    (∃ r, StartAcquisition co device acq = .ok r) ∨
      ∃ f lineDelay lineTime,
        co.SetUpProcessing acq.width acq.height acq.numberOfFrames lineDelay lineTime
          device.lineMarkerBit = .error f ∧
        StartAcquisition co device acq = .error f ∧
        (device.pixelMappingMode = PixelMappingMode.PixelMappingModeLineStartMarkers ∨
          device.pixelMappingMode = PixelMappingMode.PixelMappingModeLineEndMarkers) ∧
        co.IsStandardFIFO (co.SetUpAcquisition device.moduleNr).fifoType = true ∧
        co.SPCFileWriter_IsValid device.spcFilename
          (co.SetUpAcquisition device.moduleNr).fileHeader = true := by
  obtain ⟨v, hR⟩ := ResetAcquisitionState_ok device hvalid
  have hReset := ResetAcquisitionState_cases device v hR
  unfold StartAcquisition
  simp only [hR, bind, Except.bind, pure, Except.pure]
  rcases hReset with ⟨hv1, _⟩ | ⟨hv0, hd, _, _⟩
  · subst hv1
    exact Or.inl ⟨_, rfl⟩
  · obtain ⟨en, ri, hC⟩ := ConfigureMarkers_ok co v.2.1
    simp only [hv0, hd, hC, ne_eq, not_true_eq_false, if_false]
    rw [hd] at hC
    simp only [hC]
    split
    · exact Or.inl ⟨_, rfl⟩
    · rcases CheckMarkers_total { device with acqState := some AcqState.new } with hM | hM
      · simp only [hM, ne_eq, not_true_eq_false, if_false]
        cases hm : device.pixelMappingMode with
        | other k => exact Or.inl ⟨_, rfl⟩
        | PixelMappingModeLineStartMarkers =>
          simp only []
          repeat' split
          all_goals (first | (exact Or.inl ⟨_, rfl⟩) | skip)
          rename_i h1 h2 h3
          exact (launch_new co _ acq _ _ _).elim (fun h => Or.inl h)
            (fun ⟨f, hS, hL⟩ => Or.inr ⟨f, _, _, hS, hL, Or.inl trivial, not_not.mp h2, not_not.mp h3⟩)
        | PixelMappingModeLineEndMarkers =>
          simp only []
          repeat' split
          all_goals (first | (exact Or.inl ⟨_, rfl⟩) | skip)
          rename_i h1 h2 h3
          exact (launch_new co _ acq _ _ _).elim (fun h => Or.inl h)
            (fun ⟨f, hS, hL⟩ => Or.inr ⟨f, _, _, hS, hL, Or.inr trivial, not_not.mp h2, not_not.mp h3⟩)
      · simp only [hM]
        exact Or.inl ⟨_, rfl⟩

theorem FinishTask_step_inv (t : FinishTask) (s : FinishStep)
    (h1 : t.position = JoinPosition.waitAcq → t.dataFinished = true)
    (h2 : t.position = JoinPosition.returned →
      t.dataFinished = true ∧ (t.dataException = true ∨ t.acqFinished = true)) :
    ((t.step s).position = JoinPosition.waitAcq → (t.step s).dataFinished = true) ∧
      ((t.step s).position = JoinPosition.returned →
        (t.step s).dataFinished = true ∧
          ((t.step s).dataException = true ∨ (t.step s).acqFinished = true)) := by
  obtain ⟨d, a, p, de, ae⟩ := t
  cases s <;> cases p <;> cases d <;> cases a <;> cases de <;>
    simp_all [FinishTask.step]

/-- A ready finish: `dataFinished` is ready, and either it holds an
exception or `acqFinished` is ready too. -/
theorem FinishTask_steps_inv (steps : List FinishStep) (t : FinishTask)
    (h1 : t.position = JoinPosition.waitAcq → t.dataFinished = true)
    (h2 : t.position = JoinPosition.returned →
      t.dataFinished = true ∧ (t.dataException = true ∨ t.acqFinished = true)) :
    (t.steps steps).position = JoinPosition.returned →
      (t.steps steps).dataFinished = true ∧
        ((t.steps steps).dataException = true ∨ (t.steps steps).acqFinished = true) := by
  induction steps generalizing t with
  | nil => exact h2
  | cons s rest ih =>
    obtain ⟨k1, k2⟩ := FinishTask_step_inv t s h1 h2
    exact ih (t.step s) k1 k2

theorem FinishTask_steps_append (xs ys : List FinishStep) (t : FinishTask) :
    t.steps (xs ++ ys) = (t.steps xs).steps ys := by
  induction xs generalizing t with
  | nil => rfl
  | cons s rest ih => exact ih (t.step s)

theorem FinishTask_completes (t : FinishTask) :
    (t.steps [FinishStep.pumpCompletes, FinishStep.producerCompletes, FinishStep.taskRuns,
      FinishStep.taskRuns]).position = JoinPosition.returned := by
  obtain ⟨d, a, p, de, ae⟩ := t
  cases p <;> cases de <;> simp [FinishTask.steps, FinishTask.step]

theorem IntensityImageSink_detached_calls (calls : List HistogramCall) :
    ((IntensityImageSink.mk false).calls calls).2 = calls.filterMap expectedFrameCallback := by
  induction calls with
  | nil => rfl
  | cons c rest ih =>
    cases c <;>
      simp [IntensityImageSink.calls, IntensityImageSink.call, IntensityImageSink.HandleError,
        IntensityImageSink.HandleFrame, IntensityImageSink.HandleFinish,
        expectedFrameCallback, ih]

theorem expectedFrameCallback_not_toCompletion (calls : List HistogramCall) :
    (calls.filterMap expectedFrameCallback).filter SinkCall.toCompletion = [] := by
  induction calls with
  | nil => rfl
  | cons c rest ih =>
    cases c
    · simpa [expectedFrameCallback] using ih
    · rw [List.filterMap_cons_some (by rfl : expectedFrameCallback (HistogramCall.HandleFrame _) = some _)]
      rw [List.filter_cons_of_neg (by simp [SinkCall.toCompletion])]
      exact ih
    · simpa [expectedFrameCallback] using ih

theorem IntensityImageSink_detached_completion (calls : List HistogramCall) :
    ((IntensityImageSink.mk false).calls calls).2.filter SinkCall.toCompletion = [] ∧
      ((IntensityImageSink.mk false).calls calls).2 =
        calls.filterMap expectedFrameCallback := by
  refine ⟨?_, IntensityImageSink_detached_calls calls⟩
  rw [IntensityImageSink_detached_calls]
  exact expectedFrameCallback_not_toCompletion calls

theorem IntensityImageSink_attached_completion (calls : List HistogramCall) :
    ((IntensityImageSink.mk true).calls calls).2.filter SinkCall.toCompletion =
      expectedReport (firstTerminal calls) := by
  induction calls with
  | nil => rfl
  | cons c rest ih =>
    cases c <;>
      simp [IntensityImageSink.calls, IntensityImageSink.call, IntensityImageSink.HandleError,
        IntensityImageSink.HandleFrame, IntensityImageSink.HandleFinish, SinkCall.toCompletion,
        expectedReport, firstTerminal, HistogramCall.isTerminal,
        (IntensityImageSink_detached_completion rest).1] at ih ⊢
    exact ih

theorem IntensityImageSink_frame_callbacks (sink : IntensityImageSink)
    (calls : List HistogramCall) :
    (sink.calls calls).2.filter SinkCall.isFrameCallback =
      calls.filterMap expectedFrameCallback := by
  induction calls generalizing sink with
  | nil => rfl
  | cons c rest ih =>
    obtain ⟨d⟩ := sink
    cases c <;> cases d <;>
      simp [IntensityImageSink.calls, IntensityImageSink.call, IntensityImageSink.HandleError,
        IntensityImageSink.HandleFrame, IntensityImageSink.HandleFinish, SinkCall.isFrameCallback,
        expectedFrameCallback, ih]

theorem HistogramSink_detached (channel : Nat) (calls : List HistogramCall) :
    ((HistogramSink.mk channel false).calls calls).2 = [] := by
  induction calls with
  | nil => rfl
  | cons c rest ih =>
    cases c <;>
      simp [HistogramSink.calls, HistogramSink.call, HistogramSink.HandleError,
        HistogramSink.HandleFrame, HistogramSink.HandleFinish, ih]

theorem HistogramSink_attached (channel : Nat) (calls : List HistogramCall) :
    ((HistogramSink.mk channel true).calls calls).2 =
      expectedWriterCall channel (firstTerminal calls) := by
  induction calls with
  | nil => rfl
  | cons c rest ih =>
    cases c <;>
      simp [HistogramSink.calls, HistogramSink.call, HistogramSink.HandleError,
        HistogramSink.HandleFrame, HistogramSink.HandleFinish,
        expectedWriterCall, firstTerminal, HistogramCall.isTerminal,
        HistogramSink_detached channel rest] at ih ⊢
    exact ih

theorem filterMap_expectedFrameCallback_length (calls : List HistogramCall) :
    (calls.filterMap expectedFrameCallback).length =
      (calls.filter HistogramCall.isHandleFrame).length := by
  induction calls with
  | nil => rfl
  | cons c rest ih =>
    cases c <;> simp [expectedFrameCallback, HistogramCall.isHandleFrame, ih]

theorem callsOn_append (p : Nat) (xs ys : List ProcessorCall) :
    callsOn p (xs ++ ys) = callsOn p xs ++ callsOn p ys := by
  simp [callsOn]

theorem callsOn_forEachProcessor (N p : Nat) (f : Nat → ProcessorCall)
    (hf : ∀ i, (f i).processor = i) (hp : p < N) :
    callsOn p (forEachProcessor N f) = [f p] := by
  induction N with
  | zero => exact absurd hp (Nat.not_lt_zero p)
  | succ n ih =>
    have hsplit : forEachProcessor (n + 1) f = forEachProcessor n f ++ [f n] := by
      simp [forEachProcessor, List.range_succ]
    rw [hsplit, callsOn_append]
    by_cases hpn : p < n
    · rw [ih hpn]
      have hne : ((f n).processor == p) = false := by
        rw [hf n]
        exact beq_false_of_ne (Nat.ne_of_gt hpn)
      simp [callsOn, hne]
    · have hpe : p = n := Nat.le_antisymm (Nat.lt_succ_iff.mp hp) (Nat.not_lt.mp hpn)
      subst hpe
      have hnone : callsOn p (forEachProcessor p f) = [] := by
        simp only [callsOn, forEachProcessor, List.filter_eq_nil_iff, List.mem_map,
          List.mem_range]
        rintro c ⟨i, hi, rfl⟩
        rw [hf i]
        simp [Nat.ne_of_lt hi]
      rw [hnone]
      simp [callsOn, hf p]

theorem PumpDeviceEvents_until_end (N : Nat) (buffers : List EventBuffer)
    (later : List Received) :
    PumpDeviceEvents N
        (buffers.map (fun b => Received.returns (some b)) ++ Received.returns none :: later) =
      (deliveries N buffers ++ forEachProcessor N (fun p => ProcessorCall.HandleFinish p),
        true) := by
  induction buffers with
  | nil => rfl
  | cons b rest ih =>
    have step : PumpDeviceEvents N (Received.returns (some b) ::
        (rest.map (fun b => Received.returns (some b)) ++ Received.returns none :: later)) =
        (forEachProcessor N (fun p => ProcessorCall.HandleDeviceEvents p b.data b.size) ++
          (PumpDeviceEvents N
            (rest.map (fun b => Received.returns (some b)) ++ Received.returns none :: later)).1,
          (PumpDeviceEvents N
            (rest.map (fun b => Received.returns (some b)) ++ Received.returns none :: later)).2) :=
      rfl
    rw [List.map_cons, List.cons_append, step, ih]
    simp only [deliveries, List.append_assoc]

theorem callsOn_deliveries (N p : Nat) (hp : p < N) (buffers : List EventBuffer) :
    callsOn p (deliveries N buffers) =
      buffers.map (fun b => ProcessorCall.HandleDeviceEvents p b.data b.size) := by
  induction buffers with
  | nil => rfl
  | cons b rest ih =>
    rw [deliveries, callsOn_append, ih,
      callsOn_forEachProcessor N p
        (fun q => ProcessorCall.HandleDeviceEvents q b.data b.size) (fun _ => rfl) hp]
    rfl

theorem firstTerminal_none_of_no_terminal (calls : List HistogramCall)
    (h : ∀ c ∈ calls, c.isTerminal = false) : firstTerminal calls = none := by
  unfold firstTerminal
  rw [List.find?_eq_none]
  intro c hc
  simp [h c hc]

theorem firstTerminal_append (before : List HistogramCall) (c : HistogramCall)
    (later : List HistogramCall) (hb : ∀ x ∈ before, x.isTerminal = false)
    (hc : c.isTerminal = true) : firstTerminal (before ++ c :: later) = some c := by
  induction before with
  | nil => simp [firstTerminal, hc]
  | cons x rest ih =>
    have hx : x.isTerminal = false := hb x (List.mem_cons_self x rest)
    have hrest := ih (fun y hy => hb y (List.mem_cons_of_mem x hy))
    simp only [firstTerminal] at hrest ⊢
    simp only [List.cons_append, List.find?_cons, hx]
    exact hrest

theorem firstTerminal_some_of_terminal (calls : List HistogramCall)
    (h : ∃ c ∈ calls, c.isTerminal = true) :
    ∃ c, firstTerminal calls = some c ∧ c.isTerminal = true := by
  induction calls with
  | nil =>
    obtain ⟨c, hc, _⟩ := h
    cases hc
  | cons x rest ih =>
    by_cases hx : x.isTerminal = true
    · exact ⟨x, by simp [firstTerminal, hx], hx⟩
    · obtain ⟨c, hc, hct⟩ := h
      have hcr : c ∈ rest := by
        rcases List.mem_cons.mp hc with e | e
        · subst e
          exact absurd hct hx
        · exact e
      obtain ⟨c1, h1, h2⟩ := ih ⟨c, hcr, hct⟩
      refine ⟨c1, ?_, h2⟩
      simp only [firstTerminal] at h1 ⊢
      simp only [List.find?_cons, Bool.not_eq_true] at hx ⊢
      rw [hx]
      exact h1

theorem expectedReport_length (c : Option HistogramCall) : (expectedReport c).length ≤ 1 := by
  rcases c with _ | c
  · simp [expectedReport]
  · cases c <;> simp [expectedReport]

theorem expectedWriterCall_length (channel : Nat) (c : Option HistogramCall) :
    (expectedWriterCall channel c).length ≤ 1 := by
  rcases c with _ | c
  · simp [expectedWriterCall]
  · cases c <;> simp [expectedWriterCall]

theorem PumpDeviceEvents_cons (N : Nat) (b : EventBuffer) (stream : List Received) :
    PumpDeviceEvents N (Received.returns (some b) :: stream) =
      (forEachProcessor N (fun p => ProcessorCall.HandleDeviceEvents p b.data b.size) ++
        (PumpDeviceEvents N stream).1, (PumpDeviceEvents N stream).2) :=
  rfl

theorem PumpDeviceEvents_until_throw (N : Nat) (buffers : List EventBuffer) (what : String)
    (later : List Received) :
    PumpDeviceEvents N
        (buffers.map (fun b => Received.returns (some b)) ++ Received.throws what :: later) =
      (deliveries N buffers ++
        forEachProcessor N (fun p => ProcessorCall.HandleError p what), true) := by
  induction buffers with
  | nil => rfl
  | cons b rest ih =>
    rw [List.map_cons, List.cons_append, PumpDeviceEvents_cons, ih]
    simp only [deliveries, List.append_assoc]

/-- Every run of the pump: the buffers delivered so far, followed, when the
pump has returned, by one round of `HandleFinish` or one round of
`HandleError`. -/
theorem PumpDeviceEvents_shape (N : Nat) (stream : List Received) :
    ∃ buffers : List EventBuffer,
      PumpDeviceEvents N stream = (deliveries N buffers, false) ∨
      PumpDeviceEvents N stream =
        (deliveries N buffers ++ forEachProcessor N (fun p => ProcessorCall.HandleFinish p),
          true) ∨
      ∃ what, PumpDeviceEvents N stream =
        (deliveries N buffers ++
          forEachProcessor N (fun p => ProcessorCall.HandleError p what), true) := by
  induction stream with
  | nil => exact ⟨[], Or.inl rfl⟩
  | cons r rest ih =>
    cases r with
    | throws what => exact ⟨[], Or.inr (Or.inr ⟨what, rfl⟩)⟩
    | returns buffer =>
      cases buffer with
      | none => exact ⟨[], Or.inr (Or.inl rfl)⟩
      | some b =>
        obtain ⟨bs, h | h | ⟨w, h⟩⟩ := ih
        · exact ⟨b :: bs, Or.inl (by rw [PumpDeviceEvents_cons, h]; rfl)⟩
        · refine ⟨b :: bs, Or.inr (Or.inl ?_)⟩
          rw [PumpDeviceEvents_cons, h]
          simp only [deliveries, List.append_assoc]
        · refine ⟨b :: bs, Or.inr (Or.inr ⟨w, ?_⟩)⟩
          rw [PumpDeviceEvents_cons, h]
          simp only [deliveries, List.append_assoc]

theorem ConfigureMarkers_loop_succ {N : Nat} (data : PrivateData N) (k : Nat) (hk : k < N)
    (enabled risingEdgeActive : Nat)
    (h : ConfigureMarkers.loop data k = .ok (enabled, risingEdgeActive)) :
    ConfigureMarkers.loop data (k + 1) =
      .ok ((enabled |||
          ((if data.markerActiveEdges ⟨k, hk⟩ ≠ MarkerPolarity.MarkerPolarityDisabled
            then 1 else 0) <<< k)) % 2 ^ 16,
        (risingEdgeActive |||
          ((if data.markerActiveEdges ⟨k, hk⟩ = MarkerPolarity.MarkerPolarityRisingEdge
            then 1 else 0) <<< k)) % 2 ^ 16) := by
  simp [ConfigureMarkers.loop, h, PrivateData.edge, hk, bind, Except.bind, pure, Except.pure]

theorem testBit_or_flag (m k i : Nat) (c : Prop) [Decidable c] (hm : m < 2 ^ k) :
    (m ||| ((if c then 1 else 0) <<< k)).testBit i =
      if i = k then decide c else m.testBit i := by
  rw [Nat.testBit_or, Nat.testBit_shiftLeft]
  by_cases hik : i = k
  · subst hik
    rw [Nat.testBit_lt_two_pow hm]
    by_cases hc : c <;> simp [hc]
  · rw [if_neg hik]
    by_cases hlt : i < k
    · simp [Nat.not_le.mpr hlt]
    · have hgt : k < i := Nat.lt_of_le_of_ne (Nat.not_lt.mp hlt) (Ne.symm hik)
      have h1 : (1 : Nat).testBit (i - k) = false :=
        Nat.testBit_lt_two_pow (Nat.one_lt_two_pow (Nat.sub_ne_zero_of_lt hgt))
      by_cases hc : c <;> simp [hc, h1]

theorem or_flag_lt (m k : Nat) (c : Prop) [Decidable c] (hm : m < 2 ^ k) :
    m ||| ((if c then 1 else 0) <<< k) < 2 ^ (k + 1) := by
  apply Nat.or_lt_two_pow
  · exact Nat.lt_trans hm (Nat.pow_lt_pow_right (by decide) (Nat.lt_succ_self k))
  · rw [Nat.shiftLeft_eq]
    by_cases hc : c
    · simp [hc, Nat.pow_lt_pow_right]
    · simp [hc]

/-- The masks after `k` iterations of the loop of `ConfigureMarkers`: bit `i`
below `k` tells the polarity of marker `i`, the bits from `k` on are clear. -/
theorem ConfigureMarkers_loop_bits {N : Nat} (data : PrivateData N) :
    ∀ k, k ≤ N → k ≤ 16 → ∃ enabled risingEdgeActive,
      ConfigureMarkers.loop data k = .ok (enabled, risingEdgeActive) ∧
      enabled < 2 ^ k ∧ risingEdgeActive < 2 ^ k ∧
      ∀ i (hi : i < N), i < k →
        enabled.testBit i =
          decide (data.markerActiveEdges ⟨i, hi⟩ ≠ MarkerPolarity.MarkerPolarityDisabled) ∧
        risingEdgeActive.testBit i =
          decide (data.markerActiveEdges ⟨i, hi⟩ = MarkerPolarity.MarkerPolarityRisingEdge) := by
  intro k
  induction k with
  | zero =>
    intro _ _
    exact ⟨0, 0, rfl, by decide, by decide, fun i _ hi => absurd hi (Nat.not_lt_zero i)⟩
  | succ k ih =>
    intro hkN hk16
    have hk : k < N := hkN
    obtain ⟨en, ri, hloop, hen, hri, hbits⟩ := ih (Nat.le_of_succ_le hkN) (Nat.le_of_succ_le hk16)
    have hpow : 2 ^ (k + 1) ≤ 2 ^ 16 := Nat.pow_le_pow_right (by decide) hk16
    have hen1 := or_flag_lt en k
      (data.markerActiveEdges ⟨k, hk⟩ ≠ MarkerPolarity.MarkerPolarityDisabled) hen
    have hri1 := or_flag_lt ri k
      (data.markerActiveEdges ⟨k, hk⟩ = MarkerPolarity.MarkerPolarityRisingEdge) hri
    refine ⟨_, _, ConfigureMarkers_loop_succ data k hk en ri hloop, ?_, ?_, ?_⟩
    · rw [Nat.mod_eq_of_lt (Nat.lt_of_lt_of_le hen1 hpow)]; exact hen1
    · rw [Nat.mod_eq_of_lt (Nat.lt_of_lt_of_le hri1 hpow)]; exact hri1
    · intro i hi hik
      rw [Nat.mod_eq_of_lt (Nat.lt_of_lt_of_le hen1 hpow),
        Nat.mod_eq_of_lt (Nat.lt_of_lt_of_le hri1 hpow),
        testBit_or_flag en k i _ hen, testBit_or_flag ri k i _ hri]
      by_cases hie : i = k
      · subst hie
        simp
      · have hlt : i < k := Nat.lt_of_le_of_ne (Nat.lt_succ_iff.mp hik) hie
        rw [if_neg hie, if_neg hie]
        exact hbits i hi hlt

theorem wordSum_succ (hdr : Nat → Nat) (n : Nat) :
    wordSum hdr (n + 1) = wordSum hdr n + hdr n := by
  simp [wordSum, List.range_succ]

theorem wordSum_congr (f g : Nat → Nat) (n : Nat) (h : ∀ i, i < n → f i = g i) :
    wordSum f n = wordSum g n := by
  induction n with
  | zero => rfl
  | succ n ih =>
    rw [wordSum_succ, wordSum_succ, ih (fun i hi => h i (Nat.lt_succ_of_lt hi)),
      h n (Nat.lt_succ_self n)]

theorem compute_checksum_loop_eq (hdr : Nat → Nat) (n : Nat) :
    compute_checksum.loop hdr n = wordSum hdr n % 2 ^ 16 := by
  induction n with
  | zero => rfl
  | succ n ih =>
    rw [compute_checksum.loop, ih, wordSum_succ]
    omega

theorem compute_checksum_eq (BH_HDR_LENGTH : Nat) (BH_HEADER_CHKSUM : Int) (hdr : Nat → Nat) :
    (compute_checksum BH_HDR_LENGTH BH_HEADER_CHKSUM hdr : Int) =
      (BH_HEADER_CHKSUM - (wordSum hdr (BH_HDR_LENGTH / 2 - 1) : Int)) % 2 ^ 16 := by
  unfold compute_checksum
  rw [compute_checksum_loop_eq]
  simp only []
  rw [Int.toNat_of_nonneg (Int.emod_nonneg _ (by decide))]
  push_cast
  omega

theorem BH_ArmDetector_arm_flags (spc : SPCM) (moduleNr : Int) (privAcq : AcqPrivateData)
    (acq : Nat) (spcData : SPCdata) (trace : List ArmCall)
    (hs : privAcq.stopRequested = false) :
    (BH_ArmDetector.arm spc moduleNr privAcq acq spcData trace).2.1.isRunning =
        privAcq.isRunning ∧
      (BH_ArmDetector.arm spc moduleNr privAcq acq spcData trace).2.1.stopRequested = false ∧
      (BH_ArmDetector.arm spc moduleNr privAcq acq spcData trace).1 ≠
        OSc_Error.OSc_Error_Acquisition_Running := by
  unfold BH_ArmDetector.arm
  simp only []
  repeat' split
  all_goals simp [hs]

theorem BH_ArmDetector_configure_flags (spc : SPCM) (moduleNr : Int)
    (privAcq : AcqPrivateData) (acq : Nat) (hs : privAcq.stopRequested = false) :
    (BH_ArmDetector.configure spc moduleNr privAcq acq).2.1.isRunning = privAcq.isRunning ∧
      (BH_ArmDetector.configure spc moduleNr privAcq acq).2.1.stopRequested = false ∧
      (BH_ArmDetector.configure spc moduleNr privAcq acq).1 ≠
        OSc_Error.OSc_Error_Acquisition_Running := by
  unfold BH_ArmDetector.configure
  simp only []
  split
  · simp [hs]
  · exact BH_ArmDetector_arm_flags spc moduleNr privAcq acq _ _ hs

theorem emittedMacrotimes_append (xs ys : List DecodedCall) :
    emittedMacrotimes (xs ++ ys) = emittedMacrotimes xs ++ emittedMacrotimes ys := by
  induction xs with
  | nil => rfl
  | cons c rest ih =>
    cases c <;> simp [emittedMacrotimes, ih]

theorem HandleDeviceEvent_record (period base : Nat) (record : RawRecord)
    (hrec : record.isOverflow = false) (h64 : base + record.macrotime < 2 ^ 64) :
    BHSPCEventDecoder.HandleDeviceEvent period ⟨base⟩ record =
      (⟨base⟩, [DecodedCall.event (record.toEvent (base + record.macrotime))]) := by
  have hm : (base + record.macrotime) % 18446744073709551616 = base + record.macrotime := by
    omega
  simp [BHSPCEventDecoder.HandleDeviceEvent, hrec, hm]

theorem BitField_put_testBit_outside (f : BitField) (v i : Nat)
    (h : i < f.shift ∨ f.shift + f.bits ≤ i) : (f.put v).testBit i = false := by
  unfold BitField.put
  rw [Nat.testBit_shiftLeft]
  by_cases hi : f.shift ≤ i
  · have hb : f.bits ≤ i - f.shift := by omega
    have hlt : v % 2 ^ f.bits < 2 ^ (i - f.shift) :=
      Nat.lt_of_lt_of_le (Nat.mod_lt _ (Nat.pow_pos (by decide)))
        (Nat.pow_le_pow_right (by decide) hb)
    rw [Nat.testBit_lt_two_pow hlt]
    simp
  · simp [hi]

theorem BitField_put_testBit_inside (f : BitField) (v j : Nat) (hv : v < 2 ^ f.bits) :
    (f.put v).testBit (f.shift + j) = v.testBit j := by
  unfold BitField.put
  rw [Nat.testBit_shiftLeft, Nat.mod_eq_of_lt hv]
  simp

theorem BitField_get_testBit (f : BitField) (word j : Nat) :
    (f.get word).testBit j = (decide (j < f.bits) && word.testBit (f.shift + j)) := by
  unfold BitField.get
  rw [Nat.testBit_mod_two_pow, Nat.testBit_shiftRight]

/-- Reading a field gives back the value put there, whatever lies outside
the field. -/
theorem BitField_get_put_or (f : BitField) (v others : Nat) (hv : v < 2 ^ f.bits)
    (hothers : ∀ j, j < f.bits → others.testBit (f.shift + j) = false) :
    f.get (f.put v ||| others) = v := by
  apply Nat.eq_of_testBit_eq
  intro j
  rw [BitField_get_testBit, Nat.testBit_or, BitField_put_testBit_inside f v j hv]
  by_cases hj : j < f.bits
  · simp [hj, hothers j hj]
  · have hlt : v < 2 ^ j :=
      Nat.lt_of_lt_of_le hv (Nat.pow_le_pow_right (by decide) (Nat.not_lt.mp hj))
    simp [hj, Nat.testBit_lt_two_pow hlt]

theorem BitField_put_disjoint (f g : BitField) (v j : Nat) (hj : j < f.bits)
    (h : f.shift + f.bits ≤ g.shift ∨ g.shift + g.bits ≤ f.shift) :
    (g.put v).testBit (f.shift + j) = false := by
  apply BitField_put_testBit_outside
  omega

theorem encodePhoton_flag (layout : RawEventLayout) (macrotime microtime route flag : Nat)
    (h : ∀ field ∈ [layout.macrotime, layout.microtime, layout.route],
      flag < field.shift ∨ field.shift + field.bits ≤ flag) :
    (layout.encodePhoton macrotime microtime route).testBit flag = false := by
  unfold RawEventLayout.encodePhoton
  rw [Nat.testBit_or, Nat.testBit_or,
    BitField_put_testBit_outside _ _ _ (h layout.macrotime (by simp)),
    BitField_put_testBit_outside _ _ _ (h layout.microtime (by simp)),
    BitField_put_testBit_outside _ _ _ (h layout.route (by simp))]
  rfl

/-- The raw word of a synthetic photon reads as the valid photon it was
made of. -/
theorem parse_encodePhoton (layout : RawEventLayout) (macrotime microtime route : Nat)
    (hdisjoint : layout.photonFieldsDisjoint)
    (hmacrotime : macrotime < 2 ^ layout.macrotime.bits)
    (hmicrotime : microtime < 2 ^ layout.microtime.bits)
    (hroute : route < 2 ^ layout.route.bits) :
    layout.parse (layout.encodePhoton macrotime microtime route) =
      RawRecord.validPhoton macrotime microtime route := by
  obtain ⟨hmr, hmu, hru, hflags⟩ := hdisjoint
  have hmac : layout.macrotime.get (layout.encodePhoton macrotime microtime route) =
      macrotime := by
    unfold RawEventLayout.encodePhoton
    rw [Nat.lor_assoc]
    apply BitField_get_put_or _ _ _ hmacrotime
    intro j hj
    rw [Nat.testBit_or, BitField_put_disjoint _ _ _ j hj hmu,
      BitField_put_disjoint _ _ _ j hj hmr]
    rfl
  have hmic : layout.microtime.get (layout.encodePhoton macrotime microtime route) =
      microtime := by
    unfold RawEventLayout.encodePhoton
    rw [Nat.lor_comm (layout.macrotime.put macrotime), Nat.lor_assoc]
    apply BitField_get_put_or _ _ _ hmicrotime
    intro j hj
    rw [Nat.testBit_or, BitField_put_disjoint _ _ _ j hj hmu.symm,
      BitField_put_disjoint _ _ _ j hj hru.symm]
    rfl
  have hrou : layout.route.get (layout.encodePhoton macrotime microtime route) = route := by
    unfold RawEventLayout.encodePhoton
    rw [Nat.lor_comm]
    apply BitField_get_put_or _ _ _ hroute
    intro j hj
    rw [Nat.testBit_or, BitField_put_disjoint _ _ _ j hj hmr.symm,
      BitField_put_disjoint _ _ _ j hj hru]
    rfl
  unfold RawEventLayout.parse
  rw [encodePhoton_flag layout _ _ _ _ (hflags layout.overflowFlag (by simp)),
    encodePhoton_flag layout _ _ _ _ (hflags layout.markerFlag (by simp)),
    encodePhoton_flag layout _ _ _ _ (hflags layout.dataLostFlag (by simp)),
    encodePhoton_flag layout _ _ _ _ (hflags layout.invalidFlag (by simp)),
    hmac, hmic, hrou]
  rfl

theorem toInt32_range (x : Int) : -2 ^ 31 ≤ toInt32 x ∧ toInt32 x < 2 ^ 31 := by
  unfold toInt32
  constructor <;> omega

theorem PixelsToMacroTime_range (co : Collaborators) (pixels pixelRateHz : ℚ)
    (unitsTenthNs : Nat) :
    -2 ^ 31 ≤ PixelsToMacroTime co pixels pixelRateHz unitsTenthNs ∧
      PixelsToMacroTime co pixels pixelRateHz unitsTenthNs < 2 ^ 31 := by
  unfold PixelsToMacroTime
  split
  · constructor <;> decide
  · exact toInt32_range _

/-! ## The claims -/

/-- C1: `CheckMarkers` returns a nonzero code for every configuration in which
two of the three role bits hold the same value below `NUM_MARKER_BITS`
(pixel/line, pixel/frame or line/frame), whatever the marker polarities. -/
theorem CheckMarkers_rejects_duplicate_roles {N : Nat} (data : PrivateData N)
    (h : (data.pixelMarkerBit = data.lineMarkerBit ∧ data.lineMarkerBit < N) ∨
      (data.pixelMarkerBit = data.frameMarkerBit ∧ data.frameMarkerBit < N) ∨
      (data.lineMarkerBit = data.frameMarkerBit ∧ data.frameMarkerBit < N)) :
    ∃ err, CheckMarkers data = .ok err ∧ err ≠ 0 := by
  refine ⟨1, CheckMarkers_reject data ?_, by decide⟩
  rintro ⟨_, hpl, hfl, hpf⟩
  rcases h with ⟨e, hl⟩ | ⟨e, hf⟩ | ⟨e, hf⟩
  · exact hpl (e ▸ hl) e
  · exact hpf (e ▸ hf) hf e
  · exact hfl hf e.symm

/-- Witness of C1: the pixel marker on the line marker's bit 1 of four. -/
theorem CheckMarkers_rejects_duplicate_roles_witness :
    ((duplicateDevice.pixelMarkerBit = duplicateDevice.lineMarkerBit ∧
        duplicateDevice.lineMarkerBit < 4) ∨
      (duplicateDevice.pixelMarkerBit = duplicateDevice.frameMarkerBit ∧
        duplicateDevice.frameMarkerBit < 4) ∨
      (duplicateDevice.lineMarkerBit = duplicateDevice.frameMarkerBit ∧
        duplicateDevice.frameMarkerBit < 4)) ∧
    ∃ err, CheckMarkers duplicateDevice = .ok err ∧ err ≠ 0 :=
  ⟨Or.inl ⟨rfl, by decide⟩,
    CheckMarkers_rejects_duplicate_roles duplicateDevice (Or.inl ⟨rfl, by decide⟩)⟩

/-- C2: `CheckMarkers` returns a nonzero code whenever `lineMarkerBit` is not
below `NUM_MARKER_BITS`, or the polarity of the line marker bit is
`MarkerPolarityDisabled`; and for no configuration at all does it index the
polarity table (or the bitset) out of range. -/
theorem CheckMarkers_rejects_missing_line_marker {N : Nat} (data : PrivateData N)
    (h : N ≤ data.lineMarkerBit ∨
      ∃ hl : data.lineMarkerBit < N,
        data.markerActiveEdges ⟨data.lineMarkerBit, hl⟩ = MarkerPolarity.MarkerPolarityDisabled) :
    (∃ err, CheckMarkers data = .ok err ∧ err ≠ 0) ∧
      ∀ (other : PrivateData N) (f : Fault), CheckMarkers other ≠ .error f := by
  constructor
  · refine ⟨1, CheckMarkers_reject data ?_, by decide⟩
    rintro ⟨⟨hl, he⟩, _⟩
    rcases h with h | ⟨_, h⟩
    · exact absurd hl (Nat.not_lt.mpr h)
    · exact he h
  · intro other f hf
    rcases CheckMarkers_total other with h0 | h1
    · rw [h0] at hf
      cases hf
    · rw [h1] at hf
      cases hf

/-- Witness of C2: no line marker assigned (bit index 4 of four). -/
theorem CheckMarkers_rejects_missing_line_marker_witness :
    (4 ≤ noLineDevice.lineMarkerBit ∨
      ∃ hl : noLineDevice.lineMarkerBit < 4,
        noLineDevice.markerActiveEdges ⟨noLineDevice.lineMarkerBit, hl⟩ =
          MarkerPolarity.MarkerPolarityDisabled) ∧
    ((∃ err, CheckMarkers noLineDevice = .ok err ∧ err ≠ 0) ∧
      ∀ (other : PrivateData 4) (f : Fault), CheckMarkers other ≠ .error f) :=
  ⟨Or.inl (by decide),
    CheckMarkers_rejects_missing_line_marker noLineDevice (Or.inl (by decide))⟩

/-- C3: `CheckMarkers` returns 0 exactly on the unambiguous configurations
with a line marker (line marker bit assigned and not disabled, assigned role
bits pairwise distinct), and 1 on every other; in particular a configuration
with a line marker and neither pixel nor frame marker assigned is accepted. -/
theorem CheckMarkers_accepts_iff {N : Nat} (data : PrivateData N) :
    (CheckMarkers data = .ok 0 ↔ UnambiguousWithLineMarker data) ∧
      (¬ UnambiguousWithLineMarker data → CheckMarkers data = .ok 1) ∧
      (∀ hl : data.lineMarkerBit < N,
        data.markerActiveEdges ⟨data.lineMarkerBit, hl⟩ ≠ MarkerPolarity.MarkerPolarityDisabled →
        N ≤ data.pixelMarkerBit → N ≤ data.frameMarkerBit → CheckMarkers data = .ok 0) := by
  refine ⟨CheckMarkers_zero_iff data, CheckMarkers_reject data, ?_⟩
  intro hl he hp hf
  exact CheckMarkers_accept data
    ⟨⟨hl, he⟩, fun h => absurd h (Nat.not_lt.mpr hp), fun h => absurd h (Nat.not_lt.mpr hf),
      fun h => absurd h (Nat.not_lt.mpr hp)⟩

/-- Witness of C3: line marker on bit 1, rising edge, no pixel or frame marker. -/
theorem CheckMarkers_accepts_iff_witness : CheckMarkers sampleDevice = .ok 0 :=
  (CheckMarkers_accepts_iff sampleDevice).2.2 (by decide) (by decide) (by decide) (by decide)

/-- C4: whenever `StartAcquisition` returns a nonzero code, none of its calls
launched the consumer pump (`SetUpProcessing`) or the producer
(`StartAcquisitionStandardFIFO`) or installed the aggregate finish, and the
device data is either untouched or differs only in holding a fresh `AcqState`,
whose `finish` has no shared state. -/
theorem StartAcquisition_error_precedes_pipeline {N : Nat} (co : Collaborators)
    (device : PrivateData N) (acq : OScDev_Acquisition) (r : StartResult N)
    (h : StartAcquisition co device acq = .ok r) (hc : r.code ≠ 0) :
    (∀ e ∈ r.trace, e.startsPipeline = false) ∧
      (r.data = device ∨
        (r.data = { device with acqState := some AcqState.new } ∧
          AcqState.new.finish = shared_future.no_state)) := by
  obtain ⟨h1, h2⟩ := StartAcquisition_error_inv co device acq r h hc
  exact ⟨h1, h2.imp id (fun e => ⟨e, rfl⟩)⟩

/-- Witness of C4: the start of `noLineDevice` fails in `CheckMarkers`. -/
theorem StartAcquisition_error_precedes_pipeline_witness :
    (StartAcquisition sampleCollaborators noLineDevice sampleAcquisition = .ok noLineResult ∧
      noLineResult.code ≠ 0) ∧
    ((∀ e ∈ noLineResult.trace, e.startsPipeline = false) ∧
      (noLineResult.data = noLineDevice ∨
        (noLineResult.data = { noLineDevice with acqState := some AcqState.new } ∧
          AcqState.new.finish = shared_future.no_state))) :=
  ⟨⟨rfl, by decide⟩,
    StartAcquisition_error_precedes_pipeline sampleCollaborators noLineDevice sampleAcquisition
      noLineResult rfl (by decide)⟩

/-- C5: `StartAcquisition` never returns 0 when the pixel-mapping mode is
neither of the two implemented ones, nor when the FIFO type reported by
`SetUpAcquisition` is not a standard FIFO; and it does return (a nonzero code)
whenever the previous acquisition state, if any, has a finish to ask. -/
theorem StartAcquisition_rejects_unsupported {N : Nat} (co : Collaborators)
    (device : PrivateData N) (acq : OScDev_Acquisition)
    (h : (device.pixelMappingMode ≠ PixelMappingMode.PixelMappingModeLineStartMarkers ∧
        device.pixelMappingMode ≠ PixelMappingMode.PixelMappingModeLineEndMarkers) ∨
      co.IsStandardFIFO (co.SetUpAcquisition device.moduleNr).fifoType = false) :
    (∀ r, StartAcquisition co device acq = .ok r → r.code ≠ 0) ∧
      ((∀ a, device.acqState = some a → a.finish ≠ shared_future.no_state) →
        ∃ r, StartAcquisition co device acq = .ok r ∧ r.code ≠ 0) := by
  have key : ∀ r, StartAcquisition co device acq = .ok r → r.code ≠ 0 := by
    intro r hr h0
    obtain ⟨hm, _, hfifo, _⟩ := StartAcquisition_success_inv co device acq r hr h0
    rcases h with ⟨h1, h2⟩ | h
    · rcases hm with hm | hm
      · exact h1 hm
      · exact h2 hm
    · rw [hfifo] at h
      cases h
  refine ⟨key, fun hvalid => ?_⟩
  rcases StartAcquisition_returns_or_launch_faults co device acq hvalid with
    ⟨r, hr⟩ | ⟨f, _, _, _, _, hm, hfifo⟩
  · exact ⟨r, hr, key r hr⟩
  · rcases h with ⟨h1, h2⟩ | h
    · rcases hm with hm | hm
      · exact absurd hm h1
      · exact absurd hm h2
    · rw [hfifo] at h
      cases h

/-- Witness of C5: a device in mode `other 2` with no acquisition state. -/
theorem StartAcquisition_rejects_unsupported_witness :
    ((otherModeDevice.pixelMappingMode ≠ PixelMappingMode.PixelMappingModeLineStartMarkers ∧
        otherModeDevice.pixelMappingMode ≠ PixelMappingMode.PixelMappingModeLineEndMarkers) ∨
      sampleCollaborators.IsStandardFIFO
        (sampleCollaborators.SetUpAcquisition otherModeDevice.moduleNr).fifoType = false) ∧
    (∀ a, otherModeDevice.acqState = some a → a.finish ≠ shared_future.no_state) ∧
    (∀ r, StartAcquisition sampleCollaborators otherModeDevice sampleAcquisition = .ok r →
        r.code ≠ 0) ∧
    ∃ r, StartAcquisition sampleCollaborators otherModeDevice sampleAcquisition = .ok r ∧
      r.code ≠ 0 :=
  ⟨Or.inl ⟨by decide, by decide⟩, (fun _ ha => Option.noConfusion ha),
    (StartAcquisition_rejects_unsupported sampleCollaborators otherModeDevice sampleAcquisition
      (Or.inl ⟨by decide, by decide⟩)).1,
    (StartAcquisition_rejects_unsupported sampleCollaborators otherModeDevice sampleAcquisition
      (Or.inl ⟨by decide, by decide⟩)).2 (fun _ ha => Option.noConfusion ha)⟩

/-- C6: while an acquisition state exists whose aggregate finish is not ready,
`ResetAcquisitionState` returns 1 with the device data unchanged and without
deleting or creating an `AcqState`, and `StartAcquisition` returns that code
with the device data unchanged and without any call (no marker configuration). -/
theorem StartAcquisition_rejected_while_in_progress {N : Nat} (co : Collaborators)
    (device : PrivateData N) (acq : OScDev_Acquisition) (a : AcqState) (t : FinishTask)
    (ha : device.acqState = some a) (hf : a.finish = shared_future.task t)
    (hp : t.position ≠ JoinPosition.returned) :
    ResetAcquisitionState device = .ok (1, device, []) ∧
      StartAcquisition co device acq = .ok ⟨1, device, []⟩ := by
  have hR : ResetAcquisitionState device = .ok (1, device, []) := by
    simp [ResetAcquisitionState, ha, hf, shared_future.wait_for_0s, hp]
  refine ⟨hR, ?_⟩
  simp [StartAcquisition, hR, bind, Except.bind, pure, Except.pure]

/-- Witness of C6: the finish task of `runningDevice` still waits for the pump. -/
theorem StartAcquisition_rejected_while_in_progress_witness :
    (runningDevice.acqState =
        some ⟨shared_future.task ⟨false, false, JoinPosition.waitData, false, false⟩, ⟨false, true⟩⟩ ∧
      JoinPosition.waitData ≠ JoinPosition.returned) ∧
    (ResetAcquisitionState runningDevice = .ok (1, runningDevice, []) ∧
      StartAcquisition sampleCollaborators runningDevice sampleAcquisition =
        .ok ⟨1, runningDevice, []⟩) :=
  ⟨⟨rfl, by decide⟩,
    StartAcquisition_rejected_while_in_progress sampleCollaborators runningDevice
      sampleAcquisition ⟨shared_future.task ⟨false, false, JoinPosition.waitData, false, false⟩, ⟨false, true⟩⟩
      ⟨false, false, JoinPosition.waitData, false, false⟩ rfl rfl (by decide)⟩

/-- C7 (the code departs from the claim): after `StartAcquisition` has failed
in `CheckMarkers` on a device without acquisition state, the device holds a
fresh `AcqState` whose `finish` has no shared state, so that
`IsAcquisitionRunning` does not return false, `WaitForAcquisitionToFinish`
does not return, and a following `StartAcquisition` with a valid configuration
does not return either: each asks a future without shared state. -/
theorem failed_start_leaves_finish_without_state :
    noLineDevice.acqState = none ∧
    StartAcquisition sampleCollaborators noLineDevice sampleAcquisition = .ok noLineResult ∧
    noLineResult.code = 1 ∧
    noLineResult.data.acqState = some ⟨shared_future.no_state, promise.new⟩ ∧
    IsAcquisitionRunning noLineResult.data = .error (Fault.future_error future_errc.no_state) ∧
    WaitForAcquisitionToFinish noLineResult.data =
      .faults (Fault.future_error future_errc.no_state) ∧
    retryDevice = { noLineResult.data with lineMarkerBit := 1 } ∧
    CheckMarkers retryDevice = .ok 0 ∧
    StartAcquisition sampleCollaborators retryDevice sampleAcquisition =
      .error (Fault.future_error future_errc.no_state) :=
  ⟨rfl, rfl, rfl, rfl, rfl, rfl, rfl, rfl, rfl⟩

/-- C8: for every acquisition state `RequestAcquisitionStop` returns without
error and leaves the stop signal set and the finish as it was; called any
number of times in sequence (one or more) it leaves exactly the state the
first call left; and `StopAcquisition` never fails and, repeated, changes
nothing more. -/
theorem RequestAcquisitionStop_idempotent (acqState : AcqState) (n : Nat) :
    ∃ stopped, RequestAcquisitionStop acqState = .ok stopped ∧
      stopped.requestStop.satisfied = true ∧
      stopped.finish = acqState.finish ∧
      RequestAcquisitionStop stopped = .ok stopped ∧
      requestStopTimes (n + 1) acqState = .ok stopped ∧
      ∀ (N : Nat) (data : PrivateData N), data.acqState = some acqState →
        StopAcquisition data = .ok { data with acqState := some stopped } ∧
        StopAcquisition { data with acqState := some stopped } =
          .ok { data with acqState := some stopped } := by
  refine ⟨⟨acqState.finish, ⟨true, acqState.requestStop.future_retrieved⟩⟩,
    RequestAcquisitionStop_ok acqState, rfl, rfl, RequestAcquisitionStop_ok _, ?_, ?_⟩
  · simp only [requestStopTimes, RequestAcquisitionStop_ok]
    exact requestStopTimes_stopped n _ rfl
  · intro N data hd
    constructor
    · simp only [StopAcquisition, hd, RequestAcquisitionStop_ok]
    · simp only [StopAcquisition, RequestAcquisitionStop_ok]

/-- C10: on a device without acquisition state (`acqState` null)
`StopAcquisition`, `WaitForAcquisitionToFinish` and `ShutdownAcquisitionState`
return at once with the device data unchanged and without any call, and
`IsAcquisitionRunning` returns false. -/
theorem torn_down_controller_noop {N : Nat} (data : PrivateData N)
    (h : data.acqState = none) :
    StopAcquisition data = .ok data ∧
      WaitForAcquisitionToFinish data = .returns data ∧
      ShutdownAcquisitionState data = .returns (data, []) ∧
      IsAcquisitionRunning data = .ok false := by
  simp [StopAcquisition, WaitForAcquisitionToFinish, ShutdownAcquisitionState,
    IsAcquisitionRunning, h]

/-- Witness of C10: the sample device has no acquisition state. -/
theorem torn_down_controller_noop_witness :
    sampleDevice.acqState = none ∧
    (StopAcquisition sampleDevice = .ok sampleDevice ∧
      WaitForAcquisitionToFinish sampleDevice = .returns sampleDevice ∧
      ShutdownAcquisitionState sampleDevice = .returns (sampleDevice, []) ∧
      IsAcquisitionRunning sampleDevice = .ok false) :=
  ⟨rfl, torn_down_controller_noop sampleDevice rfl⟩

/-- C11 (the code departs from the claim): after the sample start,
`IsAcquisitionRunning` returns true, and however the pump, the producer and
the task then proceed it returns true exactly while the finish is not ready.
But a ready finish only tells that `dataFinished` is ready and that either it
holds an exception or `acqFinished` is ready too: when the consumer pump is
left by an exception and the task runs, `dataFinished.get()` rethrows, the
finish is ready while `acqFinished` is still pending, `IsAcquisitionRunning`
returns false, `WaitForAcquisitionToFinish` is left by the exception, and a
new `StartAcquisition` would delete the acquisition state. -/
theorem finish_ready_while_producer_pending :
    StartAcquisition sampleCollaborators sampleDevice sampleAcquisition = .ok sampleResult ∧
    sampleResult.code = 0 ∧
    sampleResult.data.acqState =
      some ⟨shared_future.task ⟨false, false, JoinPosition.waitData, false, false⟩,
        ⟨false, true⟩⟩ ∧
    IsAcquisitionRunning sampleResult.data = .ok true ∧
    (∀ (steps : List FinishStep) (requestStop : promise),
      ((shared_future.task
            (FinishTask.steps ⟨false, false, JoinPosition.waitData, false, false⟩
              steps)).wait_for_0s = .ok future_status.timeout ∧
          IsAcquisitionRunning
            { sampleResult.data with
              acqState := some ⟨shared_future.task
                (FinishTask.steps ⟨false, false, JoinPosition.waitData, false, false⟩ steps),
                requestStop⟩ } = .ok true) ∨
        ((shared_future.task
            (FinishTask.steps ⟨false, false, JoinPosition.waitData, false, false⟩
              steps)).wait_for_0s = .ok future_status.ready ∧
          IsAcquisitionRunning
            { sampleResult.data with
              acqState := some ⟨shared_future.task
                (FinishTask.steps ⟨false, false, JoinPosition.waitData, false, false⟩ steps),
                requestStop⟩ } = .ok false ∧
          (FinishTask.steps ⟨false, false, JoinPosition.waitData, false, false⟩
            steps).dataFinished = true ∧
          ((FinishTask.steps ⟨false, false, JoinPosition.waitData, false, false⟩
              steps).dataException = true ∨
            (FinishTask.steps ⟨false, false, JoinPosition.waitData, false, false⟩
              steps).acqFinished = true))) ∧
    FinishTask.steps ⟨false, false, JoinPosition.waitData, false, false⟩
      [FinishStep.pumpThrows, FinishStep.taskRuns] = abortedTask ∧
    abortedTask.dataFinished = true ∧
    abortedTask.acqFinished = false ∧
    (shared_future.task abortedTask).wait_for_0s = .ok future_status.ready ∧
    IsAcquisitionRunning abortedDevice = .ok false ∧
    WaitForAcquisitionToFinish abortedDevice = .faults Fault.stored_exception ∧
    ResetAcquisitionState abortedDevice =
      .ok (0, { abortedDevice with acqState := some AcqState.new },
        [Event.delete_AcqState, Event.new_AcqState]) := by
  refine ⟨rfl, rfl, rfl, rfl, ?_, rfl, rfl, rfl, rfl, rfl, rfl, rfl⟩
  intro steps requestStop
  by_cases hp : (FinishTask.steps ⟨false, false, JoinPosition.waitData, false, false⟩
      steps).position = JoinPosition.returned
  · right
    have hinv := FinishTask_steps_inv steps
      ⟨false, false, JoinPosition.waitData, false, false⟩
      (fun hc => by cases hc) (fun hc => by cases hc) hp
    refine ⟨?_, ?_, hinv.1, hinv.2⟩
    · simp [shared_future.wait_for_0s, hp]
    · simp [IsAcquisitionRunning, shared_future.wait_for_0s, hp]
  · left
    constructor
    · simp [shared_future.wait_for_0s, hp]
    · simp [IsAcquisitionRunning, shared_future.wait_for_0s, hp]

/-- C12: when `StartAcquisition` succeeds, the one `SetUpProcessing` call it
makes receives, in both modes, `lineTime`, the `int32_t` value
`p = PixelsToMacroTime(width)` converted to `uint32_t` (`p` itself when
`p >= 0`, `p + 2^32` otherwise); and with `d = PixelsToMacroTime(lineDelayPx)`
it receives `lineDelay = d` in line-start mode and, in line-end mode, the
`int32_t` value of `d - lineTime`: `d - lineTime` when that is at least
`-2^31`, and `d - lineTime + 2^32` otherwise. So in line-end mode with
`lineDelayPx = 0` (pixel rate and macro-time unit not zero) the line delay is
`-lineTime`, negative, for every `lineTime` from 1 to `2^31 - 1`. -/
theorem StartAcquisition_lineDelay {N : Nat} (co : Collaborators) (device : PrivateData N)
    (acq : OScDev_Acquisition) (r : StartResult N)
    (h : StartAcquisition co device acq = .ok r) (h0 : r.code = 0) :
    ∃ (before : List Event) (lineDelay : Int) (lineTime units : Nat) (p d : Int),
      (units : Int) = (co.SetUpAcquisition device.moduleNr).macroTimeUnitsTenthNs % 2 ^ 32 ∧
      p = PixelsToMacroTime co (acq.width : ℚ) acq.pixelRate units ∧
      d = PixelsToMacroTime co device.lineDelayPx acq.pixelRate units ∧
      r.trace = before ++
        [Event.SetUpProcessing acq.width acq.height acq.numberOfFrames lineDelay lineTime
          device.lineMarkerBit,
          Event.EventBufferPool (48 * 1024), Event.StartAcquisitionStandardFIFO device.moduleNr,
          Event.install_finish] ∧
      (∀ e ∈ before, e.startsPipeline = false) ∧
      (-2 ^ 31 ≤ p ∧ p < 2 ^ 31 ∧ -2 ^ 31 ≤ d ∧ d < 2 ^ 31) ∧
      (0 ≤ p → (lineTime : Int) = p) ∧
      (p < 0 → (lineTime : Int) = p + 2 ^ 32) ∧
      (device.pixelMappingMode = PixelMappingMode.PixelMappingModeLineStartMarkers →
        lineDelay = d) ∧
      (device.pixelMappingMode = PixelMappingMode.PixelMappingModeLineEndMarkers →
        (-2 ^ 31 ≤ d - lineTime → lineDelay = d - lineTime) ∧
        (d - lineTime < -2 ^ 31 → lineDelay = d - lineTime + 2 ^ 32)) ∧
      (device.pixelMappingMode = PixelMappingMode.PixelMappingModeLineEndMarkers →
        device.lineDelayPx = 0 → acq.pixelRate ≠ 0 → units ≠ 0 →
        1 ≤ lineTime → lineTime ≤ 2 ^ 31 - 1 →
        lineDelay = -(lineTime : Int) ∧ lineDelay < 0) := by
  obtain ⟨t0, en, ri, ends, ht0, hmode, hL⟩ :=
    StartAcquisition_success_launch co device acq r h h0
  have hr := launch_inv co _ acq _ _ _ r hL
  have hunits : ((toUInt32 (co.SetUpAcquisition device.moduleNr).macroTimeUnitsTenthNs : Nat) :
      Int) = (co.SetUpAcquisition device.moduleNr).macroTimeUnitsTenthNs % 2 ^ 32 := by
    unfold toUInt32
    exact Int.toNat_of_nonneg (Int.emod_nonneg _ (by decide))
  obtain ⟨hp1, hp2⟩ := PixelsToMacroTime_range co (acq.width : ℚ) acq.pixelRate
    (toUInt32 (co.SetUpAcquisition device.moduleNr).macroTimeUnitsTenthNs)
  obtain ⟨hd1, hd2⟩ := PixelsToMacroTime_range co device.lineDelayPx acq.pixelRate
    (toUInt32 (co.SetUpAcquisition device.moduleNr).macroTimeUnitsTenthNs)
  have hlt : ((StartAcquisition.lineTime co acq
      (co.SetUpAcquisition device.moduleNr).macroTimeUnitsTenthNs : Nat) : Int) =
      PixelsToMacroTime co (acq.width : ℚ) acq.pixelRate
        (toUInt32 (co.SetUpAcquisition device.moduleNr).macroTimeUnitsTenthNs) % 2 ^ 32 := by
    unfold StartAcquisition.lineTime toUInt32
    exact Int.toNat_of_nonneg (Int.emod_nonneg _ (by decide))
  refine ⟨_, _, _, _, _, _, hunits, rfl, rfl, by rw [hr], ?_, ⟨hp1, hp2, hd1, hd2⟩,
    ?_, ?_, ?_, ?_, ?_⟩
  · intro e he
    simp only [List.mem_append, List.mem_singleton] at he
    rcases he with ((he | he) | he) | he
    · exact ht0 e he
    · subst he
      rfl
    · subst he
      rfl
    · subst he
      rfl
  · intro hp
    rw [hlt]
    omega
  · intro hp
    rw [hlt]
    omega
  · intro hm
    rcases hmode with ⟨_, he⟩ | ⟨hm2, _⟩
    · subst he
      simp only [StartAcquisition.lineDelay, Bool.false_eq_true, if_false]
    · rw [hm] at hm2
      cases hm2
  · intro hm
    rcases hmode with ⟨hm2, _⟩ | ⟨_, he⟩
    · rw [hm] at hm2
      cases hm2
    · subst he
      simp only [StartAcquisition.lineDelay, if_true]
      have hnn : (0 : Int) ≤ (StartAcquisition.lineTime co acq
          (co.SetUpAcquisition device.moduleNr).macroTimeUnitsTenthNs : Nat) :=
        Int.ofNat_nonneg _
      have hlt32 : ((StartAcquisition.lineTime co acq
          (co.SetUpAcquisition device.moduleNr).macroTimeUnitsTenthNs : Nat) : Int) < 2 ^ 32 := by
        rw [hlt]
        exact Int.emod_lt_of_pos _ (by decide)
      unfold toInt32
      constructor <;> intro hcase <;> omega
  · intro hm hpx hrate hu h1 h2
    rcases hmode with ⟨hm2, _⟩ | ⟨_, he⟩
    · rw [hm] at hm2
      cases hm2
    · subst he
      have hd0 : PixelsToMacroTime co device.lineDelayPx acq.pixelRate
          (toUInt32 (co.SetUpAcquisition device.moduleNr).macroTimeUnitsTenthNs) = 0 := by
        unfold PixelsToMacroTime
        rw [if_pos ⟨hpx, hrate, hu⟩]
      simp only [StartAcquisition.lineDelay, if_true, hd0]
      have h2' : ((StartAcquisition.lineTime co acq
          (co.SetUpAcquisition device.moduleNr).macroTimeUnitsTenthNs : Nat) : Int) ≤
          2 ^ 31 - 1 := by
        have : StartAcquisition.lineTime co acq
          (co.SetUpAcquisition device.moduleNr).macroTimeUnitsTenthNs ≤ 2147483647 := h2
        omega
      have h1' : (1 : Int) ≤ (StartAcquisition.lineTime co acq
          (co.SetUpAcquisition device.moduleNr).macroTimeUnitsTenthNs : Nat) := by omega
      unfold toInt32
      constructor <;> omega

/-- Witness of C12: line-end mode, a line of 100 macrotime units and a line
delay of 0 pixels; the pipeline receives the line delay -100. -/
theorem StartAcquisition_lineDelay_witness :
    (StartAcquisition sampleCollaborators lineEndDevice sampleAcquisition =
        .ok lineEndResult ∧
      lineEndResult.code = 0 ∧
      lineEndDevice.pixelMappingMode = PixelMappingMode.PixelMappingModeLineEndMarkers ∧
      lineEndDevice.lineDelayPx = 0 ∧
      lineEndResult.trace =
        [Event.new_AcqState, Event.SetMarkerPolarities 0 15 15, Event.SetUpAcquisition 0,
          Event.SPCFileWriter "out.spc" [0, 0, 0, 0], Event.SetUpProcessing 4 4 2 (-100) 100 1,
          Event.EventBufferPool 49152, Event.StartAcquisitionStandardFIFO 0,
          Event.install_finish]) ∧
    ∃ (before : List Event) (lineDelay : Int) (lineTime units : Nat) (p d : Int),
      (units : Int) =
        (sampleCollaborators.SetUpAcquisition lineEndDevice.moduleNr).macroTimeUnitsTenthNs %
          2 ^ 32 ∧
      p = PixelsToMacroTime sampleCollaborators (sampleAcquisition.width : ℚ)
        sampleAcquisition.pixelRate units ∧
      d = PixelsToMacroTime sampleCollaborators lineEndDevice.lineDelayPx
        sampleAcquisition.pixelRate units ∧
      lineEndResult.trace = before ++
        [Event.SetUpProcessing sampleAcquisition.width sampleAcquisition.height
          sampleAcquisition.numberOfFrames lineDelay lineTime lineEndDevice.lineMarkerBit,
          Event.EventBufferPool (48 * 1024),
          Event.StartAcquisitionStandardFIFO lineEndDevice.moduleNr, Event.install_finish] ∧
      (∀ e ∈ before, e.startsPipeline = false) ∧
      (-2 ^ 31 ≤ p ∧ p < 2 ^ 31 ∧ -2 ^ 31 ≤ d ∧ d < 2 ^ 31) ∧
      (0 ≤ p → (lineTime : Int) = p) ∧
      (p < 0 → (lineTime : Int) = p + 2 ^ 32) ∧
      (lineEndDevice.pixelMappingMode = PixelMappingMode.PixelMappingModeLineStartMarkers →
        lineDelay = d) ∧
      (lineEndDevice.pixelMappingMode = PixelMappingMode.PixelMappingModeLineEndMarkers →
        (-2 ^ 31 ≤ d - lineTime → lineDelay = d - lineTime) ∧
        (d - lineTime < -2 ^ 31 → lineDelay = d - lineTime + 2 ^ 32)) ∧
      (lineEndDevice.pixelMappingMode = PixelMappingMode.PixelMappingModeLineEndMarkers →
        lineEndDevice.lineDelayPx = 0 → sampleAcquisition.pixelRate ≠ 0 → units ≠ 0 →
        1 ≤ lineTime → lineTime ≤ 2 ^ 31 - 1 →
        lineDelay = -(lineTime : Int) ∧ lineDelay < 0) :=
  ⟨⟨by rfl, rfl, rfl, rfl, rfl⟩,
    StartAcquisition_lineDelay sampleCollaborators lineEndDevice sampleAcquisition
      lineEndResult (by rfl) rfl⟩

/-- C13: for a stream that yields the buffers `b1, ..., bn` and then its end,
`PumpDeviceEvents` returns, having made exactly the calls `deliveries`
(each buffer to every processor, in receive order, before the next buffer to
any) followed by one `HandleFinish` per processor; every processor of the
array receives `HandleDeviceEvents` for `b1, ..., bn` in order, then exactly
one `HandleFinish`, and no `HandleError`. -/
theorem PumpDeviceEvents_in_order (N : Nat) (buffers : List EventBuffer)
    (later : List Received) :
    ∃ calls,
      PumpDeviceEvents N
          (buffers.map (fun b => Received.returns (some b)) ++ Received.returns none :: later) =
        (calls, true) ∧
      calls = deliveries N buffers ++
        forEachProcessor N (fun p => ProcessorCall.HandleFinish p) ∧
      ∀ p, p < N →
        callsOn p calls =
          buffers.map (fun b => ProcessorCall.HandleDeviceEvents p b.data b.size) ++
            [ProcessorCall.HandleFinish p] := by
  refine ⟨_, PumpDeviceEvents_until_end N buffers later, rfl, ?_⟩
  intro p hp
  rw [callsOn_append, callsOn_deliveries N p hp,
    callsOn_forEachProcessor N p (fun q => ProcessorCall.HandleFinish q) (fun _ => rfl) hp]

/-- C14: an `IntensityImageSink` constructed with a non-null completion
tracker registers "IntensityImage" once, at construction, and whatever calls
it then receives, the tracker gets from it exactly the report of the first
terminal call (`HandleFinish` or `HandleError`), and nothing if there is
none: at most one call in all. -/
theorem IntensityImageSink_reports_once (calls : List HistogramCall) :
    (IntensityImageSink.new true).2 =
        [SinkCall.AcquisitionCompletion_AddProcess "IntensityImage"] ∧
      ((IntensityImageSink.new true).1.calls calls).2.filter SinkCall.toCompletion =
        expectedReport (firstTerminal calls) ∧
      (((IntensityImageSink.new true).1.calls calls).2.filter SinkCall.toCompletion).length ≤ 1 ∧
      ((∃ c ∈ calls, c.isTerminal = true) →
        (((IntensityImageSink.new true).1.calls calls).2.filter
          SinkCall.toCompletion).length = 1) ∧
      ((∀ c ∈ calls, c.isTerminal = false) →
        ((IntensityImageSink.new true).1.calls calls).2.filter SinkCall.toCompletion = []) := by
  have key : ((IntensityImageSink.new true).1.calls calls).2.filter SinkCall.toCompletion =
      expectedReport (firstTerminal calls) := IntensityImageSink_attached_completion calls
  refine ⟨rfl, key, ?_, ?_, ?_⟩
  · rw [key]
    exact expectedReport_length _
  · intro hex
    obtain ⟨c, hc, hct⟩ := firstTerminal_some_of_terminal calls hex
    rw [key, hc]
    cases c with
    | HandleError m => rfl
    | HandleFrame f => cases hct
    | HandleFinish f b => rfl
  · intro hno
    rw [key, firstTerminal_none_of_no_terminal calls hno]
    rfl

/-- C15: a `HistogramSink` with a non-null writer makes no call for
`HandleFrame`, and whatever calls it receives, the writer gets from it
exactly the call of the first terminal one and nothing else: at most one
call in all; when the first terminal call is `HandleFinish(h, _)`, that call
is `SetHistogram(channel, h)`, whatever follows. -/
theorem HistogramSink_delivers_once (channel : Nat) (calls : List HistogramCall) :
    (∀ (sink : HistogramSink) (h : Histogram), (sink.HandleFrame h).2 = []) ∧
      ((HistogramSink.new channel true).calls calls).2 =
        expectedWriterCall channel (firstTerminal calls) ∧
      ((HistogramSink.new channel true).calls calls).2.length ≤ 1 ∧
      ∀ (before later : List HistogramCall) (h : Histogram) (isCompleteFrame : Bool),
        (∀ c ∈ before, c.isTerminal = false) →
        ((HistogramSink.new channel true).calls
            (before ++ HistogramCall.HandleFinish h isCompleteFrame :: later)).2 =
          [SinkCall.SDTWriter_SetHistogram channel h] := by
  refine ⟨fun _ _ => rfl, HistogramSink_attached channel calls, ?_, ?_⟩
  · rw [show ((HistogramSink.new channel true).calls calls).2 =
        expectedWriterCall channel (firstTerminal calls) from
      HistogramSink_attached channel calls]
    exact expectedWriterCall_length channel _
  · intro before later h b hb
    rw [show ((HistogramSink.new channel true).calls
          (before ++ HistogramCall.HandleFinish h b :: later)).2 =
        expectedWriterCall channel
          (firstTerminal (before ++ HistogramCall.HandleFinish h b :: later)) from
      HistogramSink_attached channel _]
    rw [firstTerminal_append before (HistogramCall.HandleFinish h b) later hb rfl]
    rfl

/-- Counterexample to C16: after `HandleError` has been delivered to an
`IntensityImageSink`, a later `HandleFrame` still invokes the host frame
callback. -/
theorem IntensityImageSink_frame_callback_after_error :
    (((IntensityImageSink.new true).1.HandleError "decode").1.calls
        [HistogramCall.HandleFrame sampleFrame]).2 =
      [SinkCall.OScDev_Acquisition_CallFrameCallback 0 [3, 5]] := by
  rfl

/-- C16, as amended: once `HandleError` has been delivered to a terminal sink,
no later call on that sink results in a call to the completion tracker or to
the writer; an `IntensityImageSink` still invokes the host frame callback for
every later `HandleFrame`, and makes no other call. -/
theorem sinks_detach_after_error (isink : IntensityImageSink) (hsink : HistogramSink)
    (message : String) (later : List HistogramCall) :
    ((isink.HandleError message).1.calls later).2.filter SinkCall.toCompletion = [] ∧
      ((isink.HandleError message).1.calls later).2.filter SinkCall.toWriter = [] ∧
      ((isink.HandleError message).1.calls later).2 =
        later.filterMap expectedFrameCallback ∧
      ((hsink.HandleError message).1.calls later).2 = [] := by
  have hi : (isink.HandleError message).1 = ⟨false⟩ := by
    obtain ⟨d⟩ := isink
    cases d <;> rfl
  have hh : (hsink.HandleError message).1 = ⟨hsink.channel, false⟩ := by
    obtain ⟨c, w⟩ := hsink
    cases w <;> rfl
  rw [hi, hh]
  refine ⟨(IntensityImageSink_detached_completion later).1, ?_,
    IntensityImageSink_detached_calls later, HistogramSink_detached _ later⟩
  rw [IntensityImageSink_detached_calls]
  induction later with
  | nil => rfl
  | cons c rest ih =>
    cases c
    · simpa [expectedFrameCallback] using ih
    · rw [List.filterMap_cons_some
        (by rfl : expectedFrameCallback (HistogramCall.HandleFrame _) = some _)]
      rw [List.filter_cons_of_neg (by simp [SinkCall.toWriter])]
      exact ih
    · simpa [expectedFrameCallback] using ih

/-- C17: every `HandleFrame(h)` on an `IntensityImageSink` invokes the host
frame callback exactly once, within the call, with channel 0 and the data of
`h`; `HandleFinish` and `HandleError` never invoke it; so over any sequence of
calls the frame callbacks are those of the `HandleFrame` deliveries, in order
and in equal number. -/
theorem IntensityImageSink_one_callback_per_frame (sink : IntensityImageSink)
    (calls : List HistogramCall) :
    (∀ h : Histogram,
        (sink.HandleFrame h).2 = [SinkCall.OScDev_Acquisition_CallFrameCallback 0 h.counts]) ∧
      (∀ message : String,
        (sink.HandleError message).2.filter SinkCall.isFrameCallback = []) ∧
      (∀ (h : Histogram) (isCompleteFrame : Bool),
        (sink.HandleFinish h isCompleteFrame).2.filter SinkCall.isFrameCallback = []) ∧
      (sink.calls calls).2.filter SinkCall.isFrameCallback =
        calls.filterMap expectedFrameCallback ∧
      ((sink.calls calls).2.filter SinkCall.isFrameCallback).length =
        (calls.filter HistogramCall.isHandleFrame).length := by
  refine ⟨fun _ => rfl, ?_, ?_, IntensityImageSink_frame_callbacks sink calls, ?_⟩
  · intro message
    obtain ⟨d⟩ := sink
    cases d <;> rfl
  · intro h b
    obtain ⟨d⟩ := sink
    cases d <;> rfl
  · rw [IntensityImageSink_frame_callbacks, filterMap_expectedFrameCallback_length]

/-- C18: when the `SPCFileWriter` made from `spcFilename` is not valid,
`StartAcquisition` never returns 0 and none of its calls launches the
consumer pump or the producer; and it does return (a nonzero code) whenever
the previous acquisition state, if any, has a finish to ask. -/
theorem StartAcquisition_rejects_unopened_file {N : Nat} (co : Collaborators)
    (device : PrivateData N) (acq : OScDev_Acquisition)
    (h : co.SPCFileWriter_IsValid device.spcFilename
      (co.SetUpAcquisition device.moduleNr).fileHeader = false) :
    (∀ r, StartAcquisition co device acq = .ok r →
        r.code ≠ 0 ∧ ∀ e ∈ r.trace, e.startsPipeline = false) ∧
      ((∀ a, device.acqState = some a → a.finish ≠ shared_future.no_state) →
        ∃ r, StartAcquisition co device acq = .ok r ∧ r.code ≠ 0) := by
  have key : ∀ r, StartAcquisition co device acq = .ok r → r.code ≠ 0 := by
    intro r hr h0
    obtain ⟨_, _, _, hvalid, _⟩ := StartAcquisition_success_inv co device acq r hr h0
    rw [hvalid] at h
    cases h
  refine ⟨fun r hr => ⟨key r hr, (StartAcquisition_error_inv co device acq r hr (key r hr)).1⟩,
    fun hstate => ?_⟩
  rcases StartAcquisition_returns_or_SetUpProcessing_faults co device acq hstate with
    ⟨r, hr⟩ | ⟨f, _, _, _, _, _, _, hvalid⟩
  · exact ⟨r, hr, key r hr⟩
  · rw [hvalid] at h
    cases h

/-- Witness of C18: the sample device with a file that cannot be opened. -/
theorem StartAcquisition_rejects_unopened_file_witness :
    invalidFileCollaborators.SPCFileWriter_IsValid sampleDevice.spcFilename
        (invalidFileCollaborators.SetUpAcquisition sampleDevice.moduleNr).fileHeader = false ∧
    (∀ a, sampleDevice.acqState = some a → a.finish ≠ shared_future.no_state) ∧
    StartAcquisition invalidFileCollaborators sampleDevice sampleAcquisition =
      .ok invalidFileResult ∧
    (∀ r, StartAcquisition invalidFileCollaborators sampleDevice sampleAcquisition = .ok r →
        r.code ≠ 0 ∧ ∀ e ∈ r.trace, e.startsPipeline = false) ∧
    ∃ r, StartAcquisition invalidFileCollaborators sampleDevice sampleAcquisition = .ok r ∧
      r.code ≠ 0 :=
  ⟨rfl, (fun _ ha => Option.noConfusion ha), rfl,
    (StartAcquisition_rejects_unopened_file invalidFileCollaborators sampleDevice
      sampleAcquisition rfl).1,
    (StartAcquisition_rejects_unopened_file invalidFileCollaborators sampleDevice
      sampleAcquisition rfl).2 (fun _ ha => Option.noConfusion ha)⟩

/-- C19 (the code departs from the claim): with a configuration that starts
when `SetUpProcessing` succeeds, a `std::bad_alloc` thrown by
`SetUpProcessing` is not turned into an error code: it leaves
`StartAcquisition`, which returns nothing to its caller. -/
theorem StartAcquisition_bad_alloc_escapes :
    StartAcquisition sampleCollaborators sampleDevice sampleAcquisition = .ok sampleResult ∧
    sampleResult.code = 0 ∧
    badAllocCollaborators.SetUpProcessing 4 4 2 100 100 1 = .error Fault.bad_alloc ∧
    StartAcquisition badAllocCollaborators sampleDevice sampleAcquisition =
      .error Fault.bad_alloc ∧
    ∀ r, StartAcquisition badAllocCollaborators sampleDevice sampleAcquisition ≠ .ok r :=
  ⟨rfl, rfl, rfl, rfl, fun _ h => nomatch h⟩

/-- C24: for a stream that yields the buffers `b1, ..., bn` and whose next
`ReceiveBlocking` throws, `PumpDeviceEvents` returns, and every processor of
the array has received `HandleDeviceEvents` for `b1, ..., bn` in order, then
one `HandleError` with the message of the exception, and nothing else (no
`HandleFinish`). For every stream, the calls a processor has received are
`HandleDeviceEvents` calls for some buffers, followed, exactly when the pump
has returned, by one terminal call, `HandleFinish` or `HandleError`, which is
the last call. -/
theorem PumpDeviceEvents_error_terminal (N p : Nat) (hp : p < N) :
    (∀ (buffers : List EventBuffer) (what : String) (later : List Received),
      ∃ calls,
        PumpDeviceEvents N
            (buffers.map (fun b => Received.returns (some b)) ++
              Received.throws what :: later) = (calls, true) ∧
        callsOn p calls =
          buffers.map (fun b => ProcessorCall.HandleDeviceEvents p b.data b.size) ++
            [ProcessorCall.HandleError p what]) ∧
    (∀ stream : List Received, ∃ buffers : List EventBuffer,
      ((PumpDeviceEvents N stream).2 = false ∧
        callsOn p (PumpDeviceEvents N stream).1 =
          buffers.map (fun b => ProcessorCall.HandleDeviceEvents p b.data b.size)) ∨
      ((PumpDeviceEvents N stream).2 = true ∧
        ∃ terminal,
          (terminal = ProcessorCall.HandleFinish p ∨
            ∃ what, terminal = ProcessorCall.HandleError p what) ∧
          callsOn p (PumpDeviceEvents N stream).1 =
            buffers.map (fun b => ProcessorCall.HandleDeviceEvents p b.data b.size) ++
              [terminal])) := by
  constructor
  · intro buffers what later
    refine ⟨_, PumpDeviceEvents_until_throw N buffers what later, ?_⟩
    rw [callsOn_append, callsOn_deliveries N p hp,
      callsOn_forEachProcessor N p (fun q => ProcessorCall.HandleError q what)
        (fun _ => rfl) hp]
  · intro stream
    obtain ⟨bs, h | h | ⟨w, h⟩⟩ := PumpDeviceEvents_shape N stream
    · exact ⟨bs, Or.inl ⟨by rw [h], by rw [h]; exact callsOn_deliveries N p hp bs⟩⟩
    · refine ⟨bs, Or.inr ⟨by rw [h], ProcessorCall.HandleFinish p, Or.inl rfl, ?_⟩⟩
      rw [h]
      show callsOn p (deliveries N bs ++ _) = _
      rw [callsOn_append, callsOn_deliveries N p hp,
        callsOn_forEachProcessor N p (fun q => ProcessorCall.HandleFinish q)
          (fun _ => rfl) hp]
    · refine ⟨bs, Or.inr ⟨by rw [h], ProcessorCall.HandleError p w, Or.inr ⟨w, rfl⟩, ?_⟩⟩
      rw [h]
      show callsOn p (deliveries N bs ++ _) = _
      rw [callsOn_append, callsOn_deliveries N p hp,
        callsOn_forEachProcessor N p (fun q => ProcessorCall.HandleError q w)
          (fun _ => rfl) hp]

/-- C24 at an array of two processors, for the second of them. -/
theorem PumpDeviceEvents_error_terminal_witness :
    1 < 2 ∧
    ((∀ (buffers : List EventBuffer) (what : String) (later : List Received),
      ∃ calls,
        PumpDeviceEvents 2
            (buffers.map (fun b => Received.returns (some b)) ++
              Received.throws what :: later) = (calls, true) ∧
        callsOn 1 calls =
          buffers.map (fun b => ProcessorCall.HandleDeviceEvents 1 b.data b.size) ++
            [ProcessorCall.HandleError 1 what]) ∧
    (∀ stream : List Received, ∃ buffers : List EventBuffer,
      ((PumpDeviceEvents 2 stream).2 = false ∧
        callsOn 1 (PumpDeviceEvents 2 stream).1 =
          buffers.map (fun b => ProcessorCall.HandleDeviceEvents 1 b.data b.size)) ∨
      ((PumpDeviceEvents 2 stream).2 = true ∧
        ∃ terminal,
          (terminal = ProcessorCall.HandleFinish 1 ∨
            ∃ what, terminal = ProcessorCall.HandleError 1 what) ∧
          callsOn 1 (PumpDeviceEvents 2 stream).1 =
            buffers.map (fun b => ProcessorCall.HandleDeviceEvents 1 b.data b.size) ++
              [terminal]))) :=
  ⟨by decide, PumpDeviceEvents_error_terminal 2 1 (by decide)⟩

/-- C26: with at most 16 marker bits (the masks are `uint16_t`),
`ConfigureMarkers` returns after one call of `SetMarkerPolarities`, to which it
passes masks such that, for every `i` below `NUM_MARKER_BITS`, bit `i` of
`enabled` is set iff `markerActiveEdges[i]` is not `MarkerPolarityDisabled` and
bit `i` of `risingEdgeActive` is set iff it is `MarkerPolarityRisingEdge`; the
bits from `NUM_MARKER_BITS` on are clear in both masks, and every bit of
`risingEdgeActive` is a bit of `enabled`. -/
theorem ConfigureMarkers_masks {NUM_MARKER_BITS : Nat} (co : Collaborators)
    (data : PrivateData NUM_MARKER_BITS) (hN : NUM_MARKER_BITS ≤ 16) :
    ∃ enabled risingEdgeActive,
      ConfigureMarkers co data =
        .ok (co.SetMarkerPolarities data.moduleNr enabled risingEdgeActive,
          [Event.SetMarkerPolarities data.moduleNr enabled risingEdgeActive]) ∧
      (∀ i (hi : i < NUM_MARKER_BITS),
        (enabled.testBit i = true ↔
          data.markerActiveEdges ⟨i, hi⟩ ≠ MarkerPolarity.MarkerPolarityDisabled) ∧
        (risingEdgeActive.testBit i = true ↔
          data.markerActiveEdges ⟨i, hi⟩ = MarkerPolarity.MarkerPolarityRisingEdge)) ∧
      (∀ i, NUM_MARKER_BITS ≤ i →
        enabled.testBit i = false ∧ risingEdgeActive.testBit i = false) ∧
      (∀ i, risingEdgeActive.testBit i = true → enabled.testBit i = true) ∧
      risingEdgeActive &&& enabled = risingEdgeActive := by
  obtain ⟨en, ri, hloop, hen, hri, hbits⟩ :=
    ConfigureMarkers_loop_bits data NUM_MARKER_BITS (Nat.le_refl _) hN
  have hhigh : ∀ i, NUM_MARKER_BITS ≤ i → en.testBit i = false ∧ ri.testBit i = false := by
    intro i hi
    have hp : 2 ^ NUM_MARKER_BITS ≤ 2 ^ i := Nat.pow_le_pow_right (by decide) hi
    exact ⟨Nat.testBit_lt_two_pow (Nat.lt_of_lt_of_le hen hp),
      Nat.testBit_lt_two_pow (Nat.lt_of_lt_of_le hri hp)⟩
  have hsub : ∀ i, ri.testBit i = true → en.testBit i = true := by
    intro i h
    by_cases hi : i < NUM_MARKER_BITS
    · obtain ⟨he, hr⟩ := hbits i hi hi
      rw [hr] at h
      rw [he]
      have hrise := of_decide_eq_true h
      simp [hrise]
    · rw [(hhigh i (Nat.not_lt.mp hi)).2] at h
      exact absurd h (by decide)
  refine ⟨en, ri, ?_, ?_, hhigh, hsub, ?_⟩
  · simp [ConfigureMarkers, hloop, bind, Except.bind, pure, Except.pure]
  · intro i hi
    obtain ⟨he, hr⟩ := hbits i hi hi
    rw [he, hr]
    simp
  · apply Nat.eq_of_testBit_eq
    intro i
    rw [Nat.testBit_and]
    cases hr : ri.testBit i
    · rfl
    · simp [hsub i hr]

/-- C26 at the sample device, whose four markers are all on the rising edge. -/
theorem ConfigureMarkers_masks_witness :
    4 ≤ 16 ∧
    ∃ enabled risingEdgeActive,
      ConfigureMarkers sampleCollaborators sampleDevice =
        .ok (sampleCollaborators.SetMarkerPolarities sampleDevice.moduleNr enabled
            risingEdgeActive,
          [Event.SetMarkerPolarities sampleDevice.moduleNr enabled risingEdgeActive]) ∧
      (∀ i (hi : i < 4),
        (enabled.testBit i = true ↔
          sampleDevice.markerActiveEdges ⟨i, hi⟩ ≠ MarkerPolarity.MarkerPolarityDisabled) ∧
        (risingEdgeActive.testBit i = true ↔
          sampleDevice.markerActiveEdges ⟨i, hi⟩ = MarkerPolarity.MarkerPolarityRisingEdge)) ∧
      (∀ i, 4 ≤ i →
        enabled.testBit i = false ∧ risingEdgeActive.testBit i = false) ∧
      (∀ i, risingEdgeActive.testBit i = true → enabled.testBit i = true) ∧
      risingEdgeActive &&& enabled = risingEdgeActive :=
  ⟨by decide, ConfigureMarkers_masks sampleCollaborators sampleDevice (by decide)⟩

/-- C27: for every header, `compute_checksum` returns the 16-bit value
`c = (BH_HEADER_CHKSUM - S) mod 2^16`, where `S` is the sum of the first
`BH_HDR_LENGTH/2 - 1` words; `S + c` is congruent to `BH_HEADER_CHKSUM`
modulo 2^16; the result is the same whatever the word at index
`BH_HDR_LENGTH/2 - 1` (the checksum field); and, the header having at least
one word, storing `c` there makes the sum of all `BH_HDR_LENGTH/2` words
congruent to `BH_HEADER_CHKSUM` modulo 2^16. -/
theorem compute_checksum_spec (BH_HDR_LENGTH : Nat) (BH_HEADER_CHKSUM : Int)
    (hdr : Nat → Nat) :
    (compute_checksum BH_HDR_LENGTH BH_HEADER_CHKSUM hdr : Int) =
        (BH_HEADER_CHKSUM - (wordSum hdr (BH_HDR_LENGTH / 2 - 1) : Int)) % 2 ^ 16 ∧
      compute_checksum BH_HDR_LENGTH BH_HEADER_CHKSUM hdr < 2 ^ 16 ∧
      ((wordSum hdr (BH_HDR_LENGTH / 2 - 1) +
          compute_checksum BH_HDR_LENGTH BH_HEADER_CHKSUM hdr : Nat) : Int) % 2 ^ 16 =
        BH_HEADER_CHKSUM % 2 ^ 16 ∧
      (∀ last, compute_checksum BH_HDR_LENGTH BH_HEADER_CHKSUM
          (storeWord hdr (BH_HDR_LENGTH / 2 - 1) last) =
        compute_checksum BH_HDR_LENGTH BH_HEADER_CHKSUM hdr) ∧
      (2 ≤ BH_HDR_LENGTH →
        ((wordSum (storeWord hdr (BH_HDR_LENGTH / 2 - 1)
            (compute_checksum BH_HDR_LENGTH BH_HEADER_CHKSUM hdr))
          (BH_HDR_LENGTH / 2) : Nat) : Int) % 2 ^ 16 = BH_HEADER_CHKSUM % 2 ^ 16) := by
  have hc := compute_checksum_eq BH_HDR_LENGTH BH_HEADER_CHKSUM hdr
  have hstore : ∀ last, wordSum (storeWord hdr (BH_HDR_LENGTH / 2 - 1) last)
      (BH_HDR_LENGTH / 2 - 1) = wordSum hdr (BH_HDR_LENGTH / 2 - 1) := by
    intro last
    apply wordSum_congr
    intro i hi
    simp [storeWord, Nat.ne_of_lt hi]
  refine ⟨hc, ?_, ?_, ?_, ?_⟩
  · omega
  · push_cast
    omega
  · intro last
    have h1 := compute_checksum_eq BH_HDR_LENGTH BH_HEADER_CHKSUM
      (storeWord hdr (BH_HDR_LENGTH / 2 - 1) last)
    rw [hstore last] at h1
    omega
  · intro hlen
    have hn : BH_HDR_LENGTH / 2 = (BH_HDR_LENGTH / 2 - 1) + 1 := by omega
    rw [hn, wordSum_succ, Nat.add_sub_cancel, hstore]
    simp only [storeWord, if_true]
    push_cast
    omega

/-- C27 at a header of 42 bytes whose words are all 1, with the checksum
constant 0x55aa. -/
theorem compute_checksum_spec_witness :
    2 ≤ 42 ∧
    ((wordSum (storeWord (fun _ => 1) (42 / 2 - 1)
          (compute_checksum 42 0x55aa (fun _ => 1)))
        (42 / 2) : Nat) : Int) % 2 ^ 16 = 0x55aa % 2 ^ 16 :=
  ⟨by decide, (compute_checksum_spec 42 0x55aa (fun _ => 1)).2.2.2.2 (by decide)⟩

/-- C28: if `isRunning` is true, `BH_ArmDetector` returns
`OSc_Error_Acquisition_Running`, leaves the acquisition data as they were
(`isRunning` true, `stopRequested`, frame buffer and thread included) and
makes no call; if `isRunning` is false, everything it does after its critical
section, it does on acquisition data with `isRunning` true and
`stopRequested` false, the two flags still have these values when it returns,
and the code it returns is not `OSc_Error_Acquisition_Running`. -/
theorem BH_ArmDetector_rejects_running (spc : SPCM) (moduleNr : Int)
    (privAcq : AcqPrivateData) (acq : Nat) :
    (privAcq.isRunning = true →
      BH_ArmDetector spc moduleNr privAcq acq =
        (OSc_Error.OSc_Error_Acquisition_Running, privAcq, [])) ∧
    (privAcq.isRunning = false →
      BH_ArmDetector spc moduleNr privAcq acq =
        BH_ArmDetector.configure spc moduleNr
          { privAcq with stopRequested := false, isRunning := true } acq ∧
      (BH_ArmDetector spc moduleNr privAcq acq).2.1.isRunning = true ∧
      (BH_ArmDetector spc moduleNr privAcq acq).2.1.stopRequested = false ∧
      (BH_ArmDetector spc moduleNr privAcq acq).1 ≠
        OSc_Error.OSc_Error_Acquisition_Running) := by
  constructor
  · intro h
    simp [BH_ArmDetector, h]
  · intro h
    have heq : BH_ArmDetector spc moduleNr privAcq acq =
        BH_ArmDetector.configure spc moduleNr
          { privAcq with stopRequested := false, isRunning := true } acq := by
      simp [BH_ArmDetector, h]
    have hf := BH_ArmDetector_configure_flags spc moduleNr
      { privAcq with stopRequested := false, isRunning := true } acq rfl
    rw [heq]
    exact ⟨rfl, hf.1, hf.2.1, hf.2.2⟩

/-- C28 at a running and at an idle acquisition, each with a stop requested. -/
theorem BH_ArmDetector_rejects_running_witness :
    (runningAcquisition.isRunning = true ∧
      BH_ArmDetector sampleSPCM 0 runningAcquisition 7 =
        (OSc_Error.OSc_Error_Acquisition_Running, runningAcquisition, [])) ∧
    (idleAcquisition.isRunning = false ∧
      BH_ArmDetector sampleSPCM 0 idleAcquisition 7 =
        BH_ArmDetector.configure sampleSPCM 0
          { idleAcquisition with stopRequested := false, isRunning := true } 7 ∧
      (BH_ArmDetector sampleSPCM 0 idleAcquisition 7).2.1.isRunning = true ∧
      (BH_ArmDetector sampleSPCM 0 idleAcquisition 7).2.1.stopRequested = false ∧
      (BH_ArmDetector sampleSPCM 0 idleAcquisition 7).1 ≠
        OSc_Error.OSc_Error_Acquisition_Running) :=
  ⟨⟨rfl, (BH_ArmDetector_rejects_running sampleSPCM 0 runningAcquisition 7).1 rfl⟩,
    ⟨rfl, (BH_ArmDetector_rejects_running sampleSPCM 0 idleAcquisition 7).2 rfl⟩⟩

/-- C29 (the code departs from the claim): on an idle device, with the
`SPC_get_parameters` call of line 1360 failing, `BH_ArmDetector` returns
`OSc_Error_Unknown` without having created a thread, but with `isRunning`
still true: `BH_IsRunning` then reports true, `BH_Wait` sleeps on the
condition variable, and a later `BH_ArmDetector` with a working library returns
`OSc_Error_Acquisition_Running`. -/
theorem failed_arm_leaves_isRunning_set :
    idleAcquisition.isRunning = false ∧
    BH_ArmDetector failingSPCM 0 idleAcquisition 7 =
      (OSc_Error.OSc_Error_Unknown, enteredAcquisition,
        [ArmCall.SPC_get_parameters 0,
          ArmCall.SPC_set_parameters 0
            { sampleSPCdata with
              scan_size_x := 256, scan_size_y := 256, adc_resolution := 8,
              collect_time := 10 },
          ArmCall.SPC_get_parameters 0]) ∧
    enteredAcquisition.thread = false ∧
    enteredAcquisition.isRunning = true ∧
    BH_IsRunning enteredAcquisition = (OSc_Error.OSc_Error_OK, true) ∧
    BH_Wait enteredAcquisition = .blocks OSc_Error.OSc_Error_OK ∧
    BH_ArmDetector sampleSPCM 0 enteredAcquisition 7 =
      (OSc_Error.OSc_Error_Acquisition_Running, enteredAcquisition, []) ∧
    (BH_ArmDetector sampleSPCM 0 idleAcquisition 7).1 = OSc_Error.OSc_Error_OK :=
  ⟨rfl, rfl, rfl, rfl, rfl, rfl, rfl, rfl⟩

/-- C30 (the code departs from the claim): the bin of a photon is below 256
exactly when its `micro_time` is below 4000; the 12-bit value 4000 has bin
256 and 4095 has bin 262, past the end of the 256-entry `histogram`; and in
`iPhotonCountBuffer` bin 256 of a pixel is bin 0 of the next pixel. -/
theorem microtimeBin_out_of_range :
    (4000 : Nat) < 2 ^ 12 ∧ microtimeBin 4000 = 256 ∧
    (4095 : Nat) < 2 ^ 12 ∧ microtimeBin 4095 = 262 ∧
    (∀ micro_time, microtimeBin micro_time < 256 ↔ micro_time < 4000) ∧
    ∀ pixelsPerLine tempLin locPix,
      photonCountIndex pixelsPerLine tempLin locPix (microtimeBin 4000) =
        photonCountIndex pixelsPerLine tempLin (locPix + 1) 0 := by
  refine ⟨by decide, by decide, by decide, by decide, ?_, ?_⟩
  · intro m
    unfold microtimeBin
    omega
  · intro ppl lin pix
    have h : microtimeBin 4000 = 256 := by decide
    rw [h]
    unfold photonCountIndex
    ring

/-- C25: the graph `SetUpProcessing` builds has one decoder, feeding one
pixellator (constructed with the given width, height, frame limit, line delay,
line time and line marker bit), feeding one broadcast stage with exactly two
branches. Both branches have frame and cumulative histograms over the given
width and height and 12 input bits. The first has 0 histogram bits,
`width x height` counts, and ends in the `IntensityImageSink` constructed with
the completion tracker; the second has 8 histogram bits,
`width x height x 256` counts, and ends in the `HistogramSink` constructed
with channel 0 and the histogram writer. -/
theorem SetUpProcessing_branches (width height maxFrames : Nat) (lineDelay : Int)
    (lineTime lineMarkerBit : Nat) (histogramWriter completion : Bool)
    (memory : Nat → Nat → Nat) :
    ∃ (pixellator : LineClockPixellator Histogrammers)
      (intensityProc : Histogrammer IntensityImageSink)
      (histoProc : Histogrammer HistogramSink),
      (SetUpProcessing width height maxFrames lineDelay lineTime lineMarkerBit
        histogramWriter completion memory).1 = ⟨⟨pixellator⟩⟩ ∧
      pixellator =
        ⟨width, height, maxFrames, lineDelay, lineTime, lineMarkerBit,
          ⟨intensityProc, histoProc⟩⟩ ∧
      (intensityProc.frameHisto.hasShape 0 width height ∧
        intensityProc.frameHisto.inputBits = 12 ∧
        intensityProc.frameHisto.counts.length = width * height ∧
        intensityProc.frameHisto.GetNumberOfElements = width * height ∧
        intensityProc.downstream.cumulative.hasShape 0 width height ∧
        intensityProc.downstream.cumulative.inputBits = 12 ∧
        intensityProc.downstream.downstream = (IntensityImageSink.new completion).1) ∧
      (histoProc.frameHisto.hasShape 8 width height ∧
        histoProc.frameHisto.inputBits = 12 ∧
        histoProc.frameHisto.counts.length = width * height * 256 ∧
        histoProc.frameHisto.GetNumberOfElements = width * height * 256 ∧
        histoProc.downstream.cumulative.hasShape 8 width height ∧
        histoProc.downstream.cumulative.inputBits = 12 ∧
        histoProc.downstream.downstream = HistogramSink.new 0 histogramWriter ∧
        histoProc.downstream.downstream.channel = 0) := by
  cases completion <;>
  · refine ⟨_, _, _, rfl, rfl, ?_, ?_⟩ <;>
      simp [MakeCumulativeHistogrammer, Histogram.new, Histogram.Clear, Histogram.hasShape,
        Histogram.GetNumberOfElements, HistogramSink.new, IntensityImageSink.new]

/-- C22: under every layout whose photon fields and flags do not overlap
(the macro time fitting the `uint64_t`, microtime and route the `uint16_t`
fields of the events), for every photon triple that fits the fields of the raw
word, the raw word it is encoded into reads as the valid photon with the same
triple, and a decoder at the start of an acquisition, given that word, emits
one event: the `ValidPhotonEvent` with the identical macro time, microtime and
route. -/
theorem photon_round_trip (layout : RawEventLayout) (macrotime microtime route : Nat)
    (hdisjoint : layout.photonFieldsDisjoint)
    (hwidths : layout.macrotime.bits ≤ 64 ∧ layout.microtime.bits ≤ 16 ∧
      layout.route.bits ≤ 16)
    (hmacrotime : macrotime < 2 ^ layout.macrotime.bits)
    (hmicrotime : microtime < 2 ^ layout.microtime.bits)
    (hroute : route < 2 ^ layout.route.bits) :
    layout.parse (layout.encodePhoton macrotime microtime route) =
        RawRecord.validPhoton macrotime microtime route ∧
      (BHSPCEventDecoder.HandleDeviceEvents layout DecoderState.init
          [layout.encodePhoton macrotime microtime route]).2 =
        [DecodedCall.event (DecodedEvent.ValidPhotonEvent macrotime microtime route)] := by
  have hparse := parse_encodePhoton layout macrotime microtime route hdisjoint hmacrotime
    hmicrotime hroute
  refine ⟨hparse, ?_⟩
  have h64 : macrotime < 2 ^ 64 :=
    Nat.lt_of_lt_of_le hmacrotime (Nat.pow_le_pow_right (by decide) hwidths.1)
  have hu : microtime < 2 ^ 16 :=
    Nat.lt_of_lt_of_le hmicrotime (Nat.pow_le_pow_right (by decide) hwidths.2.1)
  have hr : route < 2 ^ 16 :=
    Nat.lt_of_lt_of_le hroute (Nat.pow_le_pow_right (by decide) hwidths.2.2)
  unfold BHSPCEventDecoder.HandleDeviceEvents DecoderState.init
  rw [List.map_singleton, hparse]
  simp only [BHSPCEventDecoder.HandleRecords]
  rw [HandleDeviceEvent_record layout.period 0
    (RawRecord.validPhoton macrotime microtime route) rfl
    (by simpa [RawRecord.macrotime] using h64)]
  simp only [RawRecord.macrotime, RawRecord.toEvent, Nat.zero_add, List.append_nil,
    Nat.mod_eq_of_lt hu, Nat.mod_eq_of_lt hr]

/-- C22 at the sample layout, for the photon with native macro time 100,
microtime 7 and route 1. -/
theorem photon_round_trip_witness :
    (sampleLayout.photonFieldsDisjoint ∧
      (sampleLayout.macrotime.bits ≤ 64 ∧ sampleLayout.microtime.bits ≤ 16 ∧
        sampleLayout.route.bits ≤ 16) ∧
      100 < 2 ^ sampleLayout.macrotime.bits ∧ 7 < 2 ^ sampleLayout.microtime.bits ∧
      1 < 2 ^ sampleLayout.route.bits) ∧
    sampleLayout.encodePhoton 100 7 1 = 462948 ∧
    (sampleLayout.parse (sampleLayout.encodePhoton 100 7 1) =
        RawRecord.validPhoton 100 7 1 ∧
      (BHSPCEventDecoder.HandleDeviceEvents sampleLayout DecoderState.init
          [sampleLayout.encodePhoton 100 7 1]).2 =
        [DecodedCall.event (DecodedEvent.ValidPhotonEvent 100 7 1)]) :=
  ⟨⟨by decide, by decide, by decide, by decide, by decide⟩, by decide,
    photon_round_trip sampleLayout 100 7 1 (by decide) (by decide) (by decide) (by decide)
      (by decide)⟩

end BHSPC
